import Mathlib

/-!
# lpfs: a verification development of the /proc readers

Shallow embedding of `src/lpfs.go`.

* A Go `string` is a byte sequence; it is embedded as `List Char`, one `Char`
  standing for one byte (`GoString`).  String literals are written
  `"...".toList`.
* A Go function returning `(T, error)` is embedded as a function into
  `Outcome T`: either the function returns a pair `(val, err)` with `err`
  possibly `nil` (`Outcome.ret val err`), or it stops with a run-time panic
  (index or slice bounds out of range, `Outcome.panic`).
* Go `int` is 64 bits wide; values are embedded as `Int`, and the range test of
  `strconv.Atoi` is explicit.
* The file system is a parameter: `fs path` is what `os.ReadFile path` returns;
  when the read fails the data is empty.
* The readers of `/proc/loadavg`, `/proc/swaps`, `/proc/stat`, `/proc/meminfo`
  and `/proc/sys/kernel/osrelease` that return an `int` or a `string` are
  embedded; the five readers that return a `float64` (`GetLoadAverage1`,
  `GetLoadAverage5`, `GetLoadAverage15`, `GetUptimeSystem`, `GetUptimeIdle`) are
  not.
-/

namespace Lpfs

/-- A Go string: a sequence of bytes, one `Char` per byte. -/
abbrev GoString := List Char

/-- The Go `error` values that occur in the package. -/
inductive GoError where
  /-- A `*strconv.NumError` with `Err = ErrSyntax`, for the input `num`. -/
  | numInvalid (num : GoString)
  /-- A `*strconv.NumError` with `Err = ErrRange`, for the input `num`. -/
  | numRange (num : GoString)
  /-- An error returned by the operating system for a path. -/
  | os (path : GoString) (errno : Nat)
  /-- An error made by `fmt.Errorf` or `errors.New` with the given text. -/
  | text (msg : GoString)
  deriving DecidableEq, Repr

/-- What a call of a Go function with result type `(α, error)` does. -/
inductive Outcome (α : Type) where
  /-- The call returns `val, err` (`err = none` is Go `nil`). -/
  | ret (val : α) (err : Option GoError)
  /-- The call panics at run time. -/
  | panic
  deriving DecidableEq, Repr

/-! ## The Go library functions the package calls -/

/-- Go `s[i]` on a slice: `none` is the index-out-of-range panic. -/
def index {α : Type} (s : List α) (i : Int) : Option α :=
  if 0 ≤ i then s.get? i.toNat else none

/-- Go `s[lo:hi]` on a string: `none` is the slice-bounds-out-of-range panic. -/
def slice (s : GoString) (lo hi : Int) : Option GoString :=
  if 0 ≤ lo ∧ lo ≤ hi ∧ hi ≤ (s.length : Int) then
    some ((s.drop lo.toNat).take (hi.toNat - lo.toNat))
  else none

/-- Go `strings.Split(s, sep)` for a one-byte separator `sep`. -/
def Split (sep : Char) : GoString → List GoString
  | [] => [[]]
  | c :: cs =>
    if c = sep then [] :: Split sep cs
    else
      match Split sep cs with
      | [] => [[c]]
      | t :: ts => (c :: t) :: ts

/-- The largest `uint64`. -/
def maxUint64 : Nat := 2 ^ 64 - 1

/-- The result of the digit loop of `strconv.ParseUint`. -/
inductive UintResult where
  | val (n : Nat)
  | invalid
  | range
  deriving DecidableEq, Repr

/-- Is the byte one of `'0'..'9'`. -/
def isDecDigit (c : Char) : Bool := decide (48 ≤ c.toNat) && decide (c.toNat ≤ 57)

/-- The value `c - '0'` of a digit byte. -/
def digitVal (c : Char) : Nat := c.toNat - 48

/-- The loop of `strconv.ParseUint(s, 10, 64)` over the bytes of `s`, `n` being
the value accumulated so far: a byte that is no decimal digit is a syntax
error, and a value that leaves the `uint64` range is a range error, reported at
the byte where it happens. -/
def parseUintLoop : GoString → Nat → UintResult
  | [], n => .val n
  | c :: cs, n =>
    if isDecDigit c then
      if maxUint64 / 10 + 1 ≤ n then .range
      else if maxUint64 < n * 10 + digitVal c then .range
      else parseUintLoop cs (n * 10 + digitVal c)
    else .invalid

/-- Go `strconv.ParseUint(s, 10, 64)`. -/
def ParseUint (s : GoString) : UintResult :=
  match s with
  | [] => .invalid
  | _ => parseUintLoop s 0

/-- Go `strconv.Atoi(s)` on a 64-bit platform: an optional sign, then decimal
digits, the value in the range of `int`.  The pair is the Go result
`(int, error)`. -/
def Atoi (s : GoString) : Int × Option GoError :=
  match s with
  | [] => (0, some (.numInvalid s))
  | c :: cs =>
    let neg : Bool := c = '-'
    let body : GoString := if c = '+' ∨ c = '-' then cs else s
    match ParseUint body with
    | .invalid => (0, some (.numInvalid s))
    | .range =>
      if neg then (-(2 ^ 63 : Int), some (.numRange s))
      else ((2 ^ 63 : Int) - 1, some (.numRange s))
    | .val un =>
      if !neg ∧ 2 ^ 63 ≤ un then ((2 ^ 63 : Int) - 1, some (.numRange s))
      else if neg ∧ 2 ^ 63 < un then (-(2 ^ 63 : Int), some (.numRange s))
      else (if neg then -(un : Int) else (un : Int), none)

/-- The decimal digits of `n`, most significant first, put in front of `acc`;
`fuel` bounds the number of digits. -/
def natDigits : Nat → Nat → GoString → GoString
  | 0, _, acc => acc
  | fuel + 1, n, acc =>
    let acc1 := Char.ofNat (48 + n % 10) :: acc
    if n / 10 = 0 then acc1 else natDigits fuel (n / 10) acc1

/-- Go `strconv.Itoa(n)`. -/
def Itoa (n : Int) : GoString :=
  if n < 0 then '-' :: natDigits (n.natAbs + 1) n.natAbs []
  else natDigits (n.natAbs + 1) n.natAbs []

/-! ## The data model -/

/-- The struct `Procstat`: the fields of `/proc/<pid>/stat`. -/
structure Procstat where
  Pid : Int
  Comm : GoString
  State : GoString
  Ppid : Int
  Pgrp : Int
  Session : Int
  TtyNr : Int
  Tpgid : Int
  Flags : Int
  Minflt : Int
  Cminflt : Int
  Majflt : Int
  Cmajflt : Int
  Utime : Int
  Stime : Int
  Cutime : Int
  Cstime : Int
  Priority : Int
  Nice : Int
  NumThreads : Int
  Itrealvalue : Int
  Starttime : Int
  Vsize : Int
  Rss : Int
  Rsslim : GoString
  Startcode : Int
  Endcode : Int
  Startstack : Int
  Kstkesp : Int
  Kstkeip : Int
  Signal : Int
  Blocked : Int
  Sigignore : Int
  Sigcatch : Int
  Wchan : Int
  Nswap : Int
  Cnswap : Int
  ExitSignal : Int
  Processor : Int
  RtPriority : Int
  Policy : Int
  DelayacctBlkioTicks : Int
  GuestTime : Int
  CguestTime : Int
  StartData : Int
  EndData : Int
  StartBrk : Int
  ArgStart : Int
  ArgEnd : Int
  EnvStart : Int
  EnvEnd : Int
  ExitCode : Int

/-- The zero value `Procstat{}`. -/
def Procstat.zero : Procstat :=
  { Pid := 0, Comm := [], State := [], Ppid := 0, Pgrp := 0, Session := 0,
    TtyNr := 0, Tpgid := 0, Flags := 0, Minflt := 0, Cminflt := 0, Majflt := 0,
    Cmajflt := 0, Utime := 0, Stime := 0, Cutime := 0, Cstime := 0,
    Priority := 0, Nice := 0, NumThreads := 0, Itrealvalue := 0,
    Starttime := 0, Vsize := 0, Rss := 0, Rsslim := [], Startcode := 0,
    Endcode := 0, Startstack := 0, Kstkesp := 0, Kstkeip := 0, Signal := 0,
    Blocked := 0, Sigignore := 0, Sigcatch := 0, Wchan := 0, Nswap := 0,
    Cnswap := 0, ExitSignal := 0, Processor := 0, RtPriority := 0, Policy := 0,
    DelayacctBlkioTicks := 0, GuestTime := 0, CguestTime := 0, StartData := 0,
    EndData := 0, StartBrk := 0, ArgStart := 0, ArgEnd := 0, EnvStart := 0,
    EnvEnd := 0, ExitCode := 0 }

/-! ## Constants -/

def procdir : GoString := "/proc".toList
def procdir_per_process_stat : GoString := "/stat".toList

/-! ## GetProcessStat -/

/-- The statement pair
`x, err = strconv.Atoi(dat_s[k]); if err != nil { return Procstat{}, err }`
followed by the rest `cont x` of the function body. -/
def atoiField (dat_s : List GoString) (k : Int) (cont : Int → Outcome Procstat) :
    Outcome Procstat :=
  match index dat_s k with
  | none => .panic
  | some tok =>
    match Atoi tok with
    | (_, some e) => .ret Procstat.zero (some e)
    | (v, none) => cont v

/-- The loop `for j := 1; j < i+2; j++ { Comm.WriteString(dat_s[j]) }`: `n` is
the number of iterations still to run, `j` the loop variable and `acc` the
content of the builder; `none` is the index panic. -/
def writeWords (dat_s : List GoString) : Nat → Int → GoString → Option GoString
  | 0, _, acc => some acc
  | n + 1, j, acc =>
    match index dat_s j with
    | none => none
    | some w => writeWords dat_s n (j + 1) (acc ++ w)

/-- The value of `i` after the `if i != 0 { i *= -1 ... }` statement, for the
initial `i := 52 - len(dat_s)`. -/
def commOffset (dat_s : List GoString) : Int :=
  let i : Int := 52 - (dat_s.length : Int)
  if i ≠ 0 then i * (-1) else i

/-- The value assigned to `p.Comm`; `none` is a panic. -/
def commOf (dat_s : List GoString) : Option GoString :=
  let i : Int := 52 - (dat_s.length : Int)
  if i ≠ 0 then
    let i := i * (-1)
    match writeWords dat_s (i + 2 - 1).toNat 1 [] with
    | none => none
    | some b => slice b 1 ((b.length : Int) - 1)
  else
    match index dat_s 1 with
    | none => none
    | some w => slice w 1 ((w.length : Int) - 1)

/-- The body of `GetProcessStat` after the file has been read: `dat` is the
content of the stat file. -/
def parseStat (dat : GoString) : Outcome Procstat :=
  let dat_s := Split ' ' dat
  atoiField dat_s 0 fun pid =>
  match commOf dat_s with
  | none => .panic
  | some comm =>
  let i := commOffset dat_s
  match index dat_s (i + 2) with
  | none => .panic
  | some state =>
  atoiField dat_s (i + 3) fun ppid =>
  atoiField dat_s (i + 4) fun pgrp =>
  atoiField dat_s (i + 5) fun session =>
  atoiField dat_s (i + 6) fun ttyNr =>
  atoiField dat_s (i + 7) fun tpgid =>
  atoiField dat_s (i + 8) fun flags =>
  atoiField dat_s (i + 9) fun minflt =>
  atoiField dat_s (i + 10) fun cminflt =>
  atoiField dat_s (i + 11) fun majflt =>
  atoiField dat_s (i + 12) fun cmajflt =>
  atoiField dat_s (i + 13) fun utime =>
  atoiField dat_s (i + 14) fun stime =>
  atoiField dat_s (i + 15) fun cutime =>
  atoiField dat_s (i + 16) fun cstime =>
  atoiField dat_s (i + 17) fun priority =>
  atoiField dat_s (i + 18) fun nice =>
  atoiField dat_s (i + 19) fun numThreads =>
  atoiField dat_s (i + 20) fun itrealvalue =>
  atoiField dat_s (i + 21) fun starttime =>
  atoiField dat_s (i + 22) fun vsize =>
  atoiField dat_s (i + 23) fun rss =>
  match index dat_s 24 with
  | none => .panic
  | some rsslim =>
  atoiField dat_s (i + 25) fun startcode =>
  atoiField dat_s (i + 26) fun endcode =>
  atoiField dat_s (i + 27) fun startstack =>
  atoiField dat_s (i + 28) fun kstkesp =>
  atoiField dat_s (i + 29) fun kstkeip =>
  atoiField dat_s (i + 30) fun signal =>
  atoiField dat_s (i + 31) fun blocked =>
  atoiField dat_s (i + 32) fun sigignore =>
  atoiField dat_s (i + 33) fun sigcatch =>
  atoiField dat_s (i + 34) fun wchan =>
  atoiField dat_s (i + 35) fun nswap =>
  atoiField dat_s (i + 36) fun cnswap =>
  atoiField dat_s (i + 37) fun exitSignal =>
  atoiField dat_s (i + 38) fun processor =>
  atoiField dat_s (i + 39) fun rtPriority =>
  atoiField dat_s (i + 40) fun policy =>
  atoiField dat_s (i + 41) fun delayacctBlkioTicks =>
  atoiField dat_s (i + 42) fun guestTime =>
  atoiField dat_s (i + 43) fun cguestTime =>
  atoiField dat_s (i + 44) fun startData =>
  atoiField dat_s (i + 45) fun endData =>
  atoiField dat_s (i + 46) fun startBrk =>
  atoiField dat_s (i + 47) fun argStart =>
  atoiField dat_s (i + 48) fun argEnd =>
  atoiField dat_s (i + 49) fun envStart =>
  atoiField dat_s (i + 50) fun envEnd =>
  match index dat_s (i + 51) with
  | none => .panic
  | some lastTok =>
  match slice lastTok 0 ((lastTok.length : Int) - 1) with
  | none => .panic
  | some exitTok =>
  match Atoi exitTok with
  | (_, some e) => .ret Procstat.zero (some e)
  | (exitCode, none) =>
  .ret
    { Pid := pid, Comm := comm, State := state, Ppid := ppid, Pgrp := pgrp,
      Session := session, TtyNr := ttyNr, Tpgid := tpgid, Flags := flags,
      Minflt := minflt, Cminflt := cminflt, Majflt := majflt,
      Cmajflt := cmajflt, Utime := utime, Stime := stime, Cutime := cutime,
      Cstime := cstime, Priority := priority, Nice := nice,
      NumThreads := numThreads, Itrealvalue := itrealvalue,
      Starttime := starttime, Vsize := vsize, Rss := rss, Rsslim := rsslim,
      Startcode := startcode, Endcode := endcode, Startstack := startstack,
      Kstkesp := kstkesp, Kstkeip := kstkeip, Signal := signal,
      Blocked := blocked, Sigignore := sigignore, Sigcatch := sigcatch,
      Wchan := wchan, Nswap := nswap, Cnswap := cnswap,
      ExitSignal := exitSignal, Processor := processor,
      RtPriority := rtPriority, Policy := policy,
      DelayacctBlkioTicks := delayacctBlkioTicks, GuestTime := guestTime,
      CguestTime := cguestTime, StartData := startData, EndData := endData,
      StartBrk := startBrk, ArgStart := argStart, ArgEnd := argEnd,
      EnvStart := envStart, EnvEnd := envEnd, ExitCode := exitCode }
    none

/-- The path `procdir + "/" + strconv.Itoa(pid) + "/" + procdir_per_process_stat`. -/
def statFile (pid : Int) : GoString :=
  procdir ++ "/".toList ++ Itoa pid ++ "/".toList ++ procdir_per_process_stat

/-- `GetProcessStat(pid)`; `fs path` is the result of `os.ReadFile(path)`. -/
def GetProcessStat (fs : GoString → Except GoError GoString) (pid : Int) :
    Outcome Procstat :=
  match fs (statFile pid) with
  | .error err => .ret Procstat.zero (some err)
  | .ok dat => parseStat dat

/-! ## GetPerProcessStat -/

/-- The loop `for _, f := range files` of `GetPerProcessStat`: `names` are the
names of the entries still to visit, `pps_s` the slice built so far. -/
def walkProc (fs : GoString → Except GoError GoString) :
    List GoString → List Procstat → Outcome (List Procstat)
  | [], pps_s => .ret pps_s none
  | name :: rest, pps_s =>
    if name = "acpi".toList then .ret pps_s none
    else
      match Atoi name with
      | (_, some err) => .ret [] (some err)
      | (pid, none) =>
        match GetProcessStat fs pid with
        | .panic => .panic
        | .ret _ (some err) => .ret [] (some err)
        | .ret p none => walkProc fs rest (pps_s ++ [p])

/-- `GetPerProcessStat()`; `readDir` is the result of `ioutil.ReadDir(procdir)`
(the names of the entries), whose error is only printed. -/
def GetPerProcessStat (readDir : Except GoError (List GoString))
    (fs : GoString → Except GoError GoString) : Outcome (List Procstat) :=
  let files : List GoString :=
    match readDir with
    | .error _ => []
    | .ok files => files
  walkProc fs files []

/-! ## Tokens of a stat line -/

/-- The token at position `n` of a token list (the empty string when there is
none). -/
def tok (l : List GoString) (n : Nat) : GoString := l.getD n []

/-- The token is accepted by `strconv.Atoi`: the returned error is `nil`. -/
def isDec (t : GoString) : Prop := (Atoi t).2 = none

instance (t : GoString) : Decidable (isDec t) := by unfold isDec; infer_instance

/-- The `int` that `strconv.Atoi` returns for the token. -/
def decVal (t : GoString) : Int := (Atoi t).1

/-- The name words of a token list: tokens `1 .. len - 51`, joined without a
separator (what the `strings.Builder` holds after the loop). -/
def nameWords (l : List GoString) : GoString :=
  ((l.drop 1).take (l.length - 51)).flatten

/-- The offsets, counted from the name offset, of the tokens that are parsed
with `strconv.Atoi` as they stand: `3 .. 23` and `25 .. 50`. -/
def intField (j : Nat) : Prop := (3 ≤ j ∧ j ≤ 23) ∨ (25 ≤ j ∧ j ≤ 50)

instance (j : Nat) : Decidable (intField j) := by unfold intField; infer_instance

/-- The record whose fields are the tokens of `l` at their positions, for the
name offset `k`, the name `comm` and the exit-code text `exitTok`; `Rsslim` is
read at the absolute position 24. -/
def recordOf (l : List GoString) (k : Nat) (comm exitTok : GoString) : Procstat :=
  { Pid := decVal (tok l 0), Comm := comm, State := tok l (k + 2),
    Ppid := decVal (tok l (k + 3)), Pgrp := decVal (tok l (k + 4)),
    Session := decVal (tok l (k + 5)), TtyNr := decVal (tok l (k + 6)),
    Tpgid := decVal (tok l (k + 7)), Flags := decVal (tok l (k + 8)),
    Minflt := decVal (tok l (k + 9)), Cminflt := decVal (tok l (k + 10)),
    Majflt := decVal (tok l (k + 11)), Cmajflt := decVal (tok l (k + 12)),
    Utime := decVal (tok l (k + 13)), Stime := decVal (tok l (k + 14)),
    Cutime := decVal (tok l (k + 15)), Cstime := decVal (tok l (k + 16)),
    Priority := decVal (tok l (k + 17)), Nice := decVal (tok l (k + 18)),
    NumThreads := decVal (tok l (k + 19)), Itrealvalue := decVal (tok l (k + 20)),
    Starttime := decVal (tok l (k + 21)), Vsize := decVal (tok l (k + 22)),
    Rss := decVal (tok l (k + 23)), Rsslim := tok l 24,
    Startcode := decVal (tok l (k + 25)), Endcode := decVal (tok l (k + 26)),
    Startstack := decVal (tok l (k + 27)), Kstkesp := decVal (tok l (k + 28)),
    Kstkeip := decVal (tok l (k + 29)), Signal := decVal (tok l (k + 30)),
    Blocked := decVal (tok l (k + 31)), Sigignore := decVal (tok l (k + 32)),
    Sigcatch := decVal (tok l (k + 33)), Wchan := decVal (tok l (k + 34)),
    Nswap := decVal (tok l (k + 35)), Cnswap := decVal (tok l (k + 36)),
    ExitSignal := decVal (tok l (k + 37)), Processor := decVal (tok l (k + 38)),
    RtPriority := decVal (tok l (k + 39)), Policy := decVal (tok l (k + 40)),
    DelayacctBlkioTicks := decVal (tok l (k + 41)),
    GuestTime := decVal (tok l (k + 42)), CguestTime := decVal (tok l (k + 43)),
    StartData := decVal (tok l (k + 44)), EndData := decVal (tok l (k + 45)),
    StartBrk := decVal (tok l (k + 46)), ArgStart := decVal (tok l (k + 47)),
    ArgEnd := decVal (tok l (k + 48)), EnvStart := decVal (tok l (k + 49)),
    EnvEnd := decVal (tok l (k + 50)), ExitCode := decVal exitTok }

/-! ## The delimiters of the name, in the words of the specification -/

/-- The bytes strictly between the first `(` of the line and the last `)` of
the line (the pid token before the name holds digits only, so the first `(` of
the line is the first one after the pid token). -/
def commDelimited (dat : GoString) : GoString :=
  let afterOpen := (dat.dropWhile (fun c => c ≠ '(')).drop 1
  ((afterOpen.reverse.dropWhile (fun c => c ≠ ')')).drop 1).reverse

/-- A file system that holds one file: `path`, with the content `content`; any
other path does not exist (`ENOENT`). -/
def oneFile (path content : GoString) : GoString → Except GoError GoString :=
  fun q => if q = path then .ok content else .error (.os q 2)

/-! ## Concrete stat lines -/

/-- The line of the specification's example, completed to 52 tokens: a one-word
name and an `rsslim` of `2^64 - 1`. -/
def plainLine : GoString :=
  "42 (sh) S 1 42 42 0 -1 4194560 100 0 0 0 2 1 0 0 20 0 1 0 500 4000 100 18446744073709551615 1 2 3 4 5 6 7 8 9 10 11 12 17 3 0 0 0 0 0 21 22 23 24 25 26 27 0\n".toList

/-- The same line with the name `my)weird proc`: an embedded `)` and an
embedded space. -/
def weirdLine : GoString :=
  "42 (my)weird proc) S 1 42 42 0 -1 4194560 100 0 0 0 2 1 0 0 20 0 1 0 500 4000 100 18446744073709551615 1 2 3 4 5 6 7 8 9 10 11 12 17 3 0 0 0 0 0 21 22 23 24 25 26 27 0\n".toList

/-- A line with a one-word name `bash` and every field different from its
neighbours. -/
def bashLine : GoString :=
  "1234 (bash) R 1 1234 1230 34816 1240 4194304 101 102 103 104 105 106 107 108 20 -5 1 0 8000 12345678 900 4294967295 4096 8192 16384 1 2 3 4 5 6 7 8 9 17 3 50 2 11 12 13 14 15 16 17 18 19 20 -1\n".toList

/-! ## Rendering a record as a stat line -/

/-- The stat line of a record: the pid, the name between `(` and `)`, then the
remaining fields in kernel order, the fields separated by single spaces and the
line ended by a newline. -/
def renderStat (r : Procstat) : GoString :=
  [' '].intercalate
    [Itoa r.Pid, '(' :: (r.Comm ++ [')']), r.State, Itoa r.Ppid, Itoa r.Pgrp, Itoa r.Session,
      Itoa r.TtyNr, Itoa r.Tpgid, Itoa r.Flags, Itoa r.Minflt, Itoa r.Cminflt, Itoa r.Majflt,
      Itoa r.Cmajflt, Itoa r.Utime, Itoa r.Stime, Itoa r.Cutime, Itoa r.Cstime,
      Itoa r.Priority, Itoa r.Nice, Itoa r.NumThreads, Itoa r.Itrealvalue, Itoa r.Starttime,
      Itoa r.Vsize, Itoa r.Rss, r.Rsslim, Itoa r.Startcode, Itoa r.Endcode, Itoa r.Startstack,
      Itoa r.Kstkesp, Itoa r.Kstkeip, Itoa r.Signal, Itoa r.Blocked, Itoa r.Sigignore,
      Itoa r.Sigcatch, Itoa r.Wchan, Itoa r.Nswap, Itoa r.Cnswap, Itoa r.ExitSignal,
      Itoa r.Processor, Itoa r.RtPriority, Itoa r.Policy, Itoa r.DelayacctBlkioTicks,
      Itoa r.GuestTime, Itoa r.CguestTime, Itoa r.StartData, Itoa r.EndData, Itoa r.StartBrk,
      Itoa r.ArgStart, Itoa r.ArgEnd, Itoa r.EnvStart, Itoa r.EnvEnd, Itoa r.ExitCode] ++ ['\n']

/-- A record whose name `my proc` holds a space. -/
def spacedRecord : Procstat :=
  { Pid := 42, Comm := "my proc".toList, State := "S".toList, Ppid := 1, Pgrp := 42,
    Session := 42, TtyNr := 0, Tpgid := -1, Flags := 4194560, Minflt := 100, Cminflt := 0,
    Majflt := 0, Cmajflt := 0, Utime := 2, Stime := 1, Cutime := 0, Cstime := 0,
    Priority := 20, Nice := 0, NumThreads := 1, Itrealvalue := 0, Starttime := 500,
    Vsize := 4000, Rss := 100, Rsslim := "18446744073709551615".toList, Startcode := 1,
    Endcode := 2, Startstack := 3, Kstkesp := 4, Kstkeip := 5, Signal := 6, Blocked := 7,
    Sigignore := 8, Sigcatch := 9, Wchan := 10, Nswap := 11, Cnswap := 12, ExitSignal := 17,
    Processor := 3, RtPriority := 0, Policy := 0, DelayacctBlkioTicks := 0, GuestTime := 0,
    CguestTime := 0, StartData := 21, EndData := 22, StartBrk := 23, ArgStart := 24,
    ArgEnd := 25, EnvStart := 26, EnvEnd := 27, ExitCode := 0 }

/-! ## Failure on an integer token -/

/-- The text `t` is one that the parser passes to `strconv.Atoi` on the tokens
`l` with the name offset `k`: token 0 (the pid), a token at an integer offset
behind the name, or the last token without its last byte (the exit code). -/
def isIntText (l : List GoString) (k : Nat) (t : GoString) : Prop :=
  t = tok l 0 ∨ (∃ j, intField j ∧ t = tok l (k + j)) ∨ t = (tok l (k + 51)).dropLast

/-- The call fails on an integer token: it returns the zero record together
with the error that `strconv.Atoi` returns for a text the parser passes to
it. -/
def FailsAtIntToken (l : List GoString) (k : Nat) (o : Outcome Procstat) : Prop :=
  ∃ t e, isIntText l k t ∧ (Atoi t).2 = some e ∧ o = .ret Procstat.zero (some e)

/-- The line `plainLine` with the kernel address `18446744071579755915` as its
`wchan` token (token 34), which is outside the range of `int`. -/
def wchanLine : GoString :=
  "42 (sh) S 1 42 42 0 -1 4194560 100 0 0 0 2 1 0 0 20 0 1 0 500 4000 100 18446744073709551615 1 2 3 4 5 6 7 8 9 18446744071579755915 11 12 17 3 0 0 0 0 0 21 22 23 24 25 26 27 0\n".toList

/-- The line `bashLine` with one more token after the last field. -/
def extraLine : GoString :=
  "1234 (bash) R 1 1234 1230 34816 1240 4194304 101 102 103 104 105 106 107 108 20 -5 1 0 8000 12345678 900 4294967295 4096 8192 16384 1 2 3 4 5 6 7 8 9 17 3 50 2 11 12 13 14 15 16 17 18 19 20 -1 0\n".toList

/-- The line `plainLine` cut off after the space that precedes the exit code:
52 tokens, the last one empty. -/
def cutLine : GoString :=
  "42 (sh) S 1 42 42 0 -1 4194560 100 0 0 0 2 1 0 0 20 0 1 0 500 4000 100 18446744073709551615 1 2 3 4 5 6 7 8 9 10 11 12 17 3 0 0 0 0 0 21 22 23 24 25 26 27 ".toList

/-- The first four tokens of `plainLine`: a valid pid and too few tokens after
the name. -/
def shortLine : GoString := "42 (sh) S 1\n".toList

/-! ## Decimal integers, in the words of the `strconv` documentation -/

/-- The text without its leading sign `+` or `-`, if it has one. -/
def unsignedPart (t : GoString) : GoString :=
  match t with
  | [] => []
  | c :: cs => if c = '+' ∨ c = '-' then cs else c :: cs

/-- Does the text begin with `-`. -/
def isNegative (t : GoString) : Bool :=
  match t with
  | [] => false
  | c :: _ => c = '-'

/-- The number that a sequence of decimal digits denotes. -/
def digitsValue (ds : GoString) : Nat :=
  ds.foldl (fun n c => n * 10 + digitVal c) 0

/-- The integer that a decimal text with an optional sign denotes. -/
def signedValue (t : GoString) : Int :=
  if isNegative t then -(digitsValue (unsignedPart t) : Int)
  else (digitsValue (unsignedPart t) : Int)

/-- A decimal integer in the range of a 64-bit `int`: an optional sign `+` or
`-`, then one or more decimal digits, the value between `-2^63` and
`2^63 - 1`. -/
def isSignedDecimal (t : GoString) : Prop :=
  unsignedPart t ≠ [] ∧ (∀ c ∈ unsignedPart t, isDecDigit c = true) ∧
  -(9223372036854775808 : Int) ≤ signedValue t ∧ signedValue t ≤ 9223372036854775807

instance (t : GoString) : Decidable (isSignedDecimal t) := by
  unfold isSignedDecimal; infer_instance

/-! ## The delimiters of the name and the sign of the pid -/

/-- The part of the line after the pid token: from the first space on. -/
def afterPid (dat : GoString) : GoString := dat.dropWhile (fun c => c ≠ ' ')

/-- A `(` is found after the pid token and a `)` follows it. -/
def hasNameDelimiters (dat : GoString) : Prop :=
  ∃ a b c : GoString, afterPid dat = a ++ '(' :: (b ++ ')' :: c)

/-- The line `bashLine` with the bare name `bash`, without parentheses. -/
def bareLine : GoString :=
  "1234 bash R 1 1234 1230 34816 1240 4194304 101 102 103 104 105 106 107 108 20 -5 1 0 8000 12345678 900 4294967295 4096 8192 16384 1 2 3 4 5 6 7 8 9 17 3 50 2 11 12 13 14 15 16 17 18 19 20 -1\n".toList

/-- The line `plainLine` with the leading token `-5`. -/
def negLine : GoString :=
  "-5 (sh) S 1 42 42 0 -1 4194560 100 0 0 0 2 1 0 0 20 0 1 0 500 4000 100 18446744073709551615 1 2 3 4 5 6 7 8 9 10 11 12 17 3 0 0 0 0 0 21 22 23 24 25 26 27 0\n".toList

/-- The line `plainLine` with the leading token `4x2`. -/
def badPidLine : GoString :=
  "4x2 (sh) S 1 42 42 0 -1 4194560 100 0 0 0 2 1 0 0 20 0 1 0 500 4000 100 18446744073709551615 1 2 3 4 5 6 7 8 9 10 11 12 17 3 0 0 0 0 0 21 22 23 24 25 26 27 0\n".toList

/-! ## The entries of the `/proc` listing -/

/-- The entries that the loop of `GetPerProcessStat` visits: those before the
first entry named `acpi`. -/
def entriesBeforeAcpi (names : List GoString) : List GoString :=
  names.takeWhile (fun n => decide (n ≠ "acpi".toList))

/-- The record that `GetProcessStat` returns for the entry `name`. -/
def recordFor (fs : GoString → Except GoError GoString) (name : GoString) : Procstat :=
  match GetProcessStat fs (decVal name) with
  | .ret p _ => p
  | .panic => Procstat.zero

/-- The entry has a name that `strconv.Atoi` accepts and `GetProcessStat`
returns a record with a nil error for it. -/
def entryOk (fs : GoString → Except GoError GoString) (name : GoString) : Prop :=
  isDec name ∧ ∃ p, GetProcessStat fs (decVal name) = .ret p none

/-- A listing of `/proc` on a machine without an `acpi` entry: one process, then
the first non-numeric entries. -/
def listingNoAcpi : List GoString :=
  ["1234".toList, "buddyinfo".toList, "bus".toList, "self".toList]

/-! ## Listings and file systems for `GetPerProcessStat` -/

/-- The names that `ioutil.ReadDir` hands to the loop: the entries read, or
none when the directory cannot be read. -/
def listedNames (readDir : Except GoError (List GoString)) : List GoString :=
  match readDir with
  | .error _ => []
  | .ok files => files

/-- A file system with the stat files of the processes 42 (`plainLine`) and
1234 (`bashLine`) and nothing else. -/
def twoProcs : GoString → Except GoError GoString :=
  fun q =>
    if q = statFile 42 then .ok plainLine
    else if q = statFile 1234 then .ok bashLine
    else .error (.os q 2)

/-- A listing with the processes 42 and 1234 (in this order), then `acpi` and
further entries. -/
def listingTwo : List GoString :=
  ["42".toList, "1234".toList, "acpi".toList, "bus".toList, "self".toList]

/-- A listing whose second process, 77, has no stat file in `twoProcs`. -/
def listingGone : List GoString :=
  ["1234".toList, "77".toList, "42".toList, "acpi".toList]

/-! ## More library functions: `strings.Fields`, `strings.TrimSpace`, `strings.Join` -/

/-- The white space of `strings.Fields` and `strings.TrimSpace` on ASCII text:
`'\t'`, `'\n'`, `'\v'`, `'\f'`, `'\r'` and `' '`.  (The non-ASCII space
characters of Unicode are not embedded: the contents of `/proc` are ASCII.) -/
def isSpace (c : Char) : Bool :=
  decide (c.toNat = 9) || decide (c.toNat = 10) || decide (c.toNat = 11) ||
  decide (c.toNat = 12) || decide (c.toNat = 13) || decide (c.toNat = 32)

/-- The loop of `strings.Fields`: `cur` is the field being read, empty between
two fields. -/
def fieldsLoop : GoString → GoString → List GoString
  | [], cur => if cur = [] then [] else [cur]
  | c :: cs, cur =>
    if isSpace c then
      if cur = [] then fieldsLoop cs [] else cur :: fieldsLoop cs []
    else fieldsLoop cs (cur ++ [c])

/-- Go `strings.Fields(s)`: the maximal runs of bytes that are no white space. -/
def Fields (s : GoString) : List GoString := fieldsLoop s []

/-- Go `strings.TrimSpace(s)`: `s` without its leading and trailing white
space. -/
def TrimSpace (s : GoString) : GoString :=
  ((s.dropWhile isSpace).reverse.dropWhile isSpace).reverse

/-- Go `strings.Join(elems, sep)`. -/
def Join (elems : List GoString) (sep : GoString) : GoString :=
  sep.intercalate elems

/-- The value of a Go `int` expression computed in `Int`: two's complement
wrap-around to 64 bits. -/
def wrap64 (x : Int) : Int := (x + 2 ^ 63) % 2 ^ 64 - 2 ^ 63

/-! ## The scalar readers -/

def procdir_loadavg : GoString := "/proc/loadavg".toList
def procdir_swaps : GoString := "/proc/swaps".toList
def procdir_stat : GoString := "/proc/stat".toList
def procdir_uptime : GoString := "/proc/uptime".toList
def procdir_meminfo : GoString := "/proc/meminfo".toList
def procdir_osrelease : GoString := "/proc/sys/kernel/osrelease".toList

/-- `GetRunnableQueueSize()`. -/
def GetRunnableQueueSize (fs : GoString → Except GoError GoString) : Outcome Int :=
  match fs procdir_loadavg with
  | .error err => .ret 0 (some err)
  | .ok dat =>
    match index (Split ' ' dat) 3 with
    | none => .panic
    | some dat_s =>
      match index (Split '/' dat_s) 0 with
      | none => .panic
      | some t =>
        match Atoi t with
        | (_, some err) => .ret 0 (some err)
        | (runq, none) => .ret runq none

/-- `GetTaskQueueSize()`. -/
def GetTaskQueueSize (fs : GoString → Except GoError GoString) : Outcome Int :=
  match fs procdir_loadavg with
  | .error err => .ret 0 (some err)
  | .ok dat =>
    match index (Split ' ' dat) 3 with
    | none => .panic
    | some dat_s =>
      match index (Split '/' dat_s) 1 with
      | none => .panic
      | some t =>
        match Atoi t with
        | (_, some err) => .ret 0 (some err)
        | (tskq, none) => .ret tskq none

/-- `GetMostRecentPid()`. -/
def GetMostRecentPid (fs : GoString → Except GoError GoString) : Outcome Int :=
  match fs procdir_loadavg with
  | .error err => .ret 0 (some err)
  | .ok dat =>
    match index (Split ' ' dat) 4 with
    | none => .panic
    | some dat_s =>
      match slice dat_s 0 ((dat_s.length : Int) - 1) with
      | none => .panic
      | some t =>
        match Atoi t with
        | (_, some err) => .ret 0 (some err)
        | (pid, none) => .ret pid none

/-- The expression
`strings.Split(strings.Join(strings.Fields(strings.TrimSpace(line)), " "), " ")[k]`
of the swap readers; `none` is the index panic. -/
def swapColumn (line : GoString) (k : Int) : Option GoString :=
  index (Split ' ' (Join (Fields (TrimSpace line)) " ".toList)) k

/-- The error made by `fmt.Errorf("no swap partition")`. -/
def noSwapPartition : GoError := .text "no swap partition".toList

/-- The body shared by `GetSwapFilename` and `GetSwapType`, which differ in the
column `k` only. -/
def swapText (fs : GoString → Except GoError GoString) (k : Int) : Outcome GoString :=
  match fs procdir_swaps with
  | .error err => .ret [] (some err)
  | .ok dat =>
    match index (Split '\n' dat) 1 with
    | none => .panic
    | some line =>
      if line = [] then .ret [] (some noSwapPartition)
      else
        match swapColumn line k with
        | none => .panic
        | some s => .ret s none

/-- The body shared by `GetSwapSize`, `GetSwapUsed` and `GetSwapPriority`,
which differ in the column `k` only. -/
def swapInt (fs : GoString → Except GoError GoString) (k : Int) : Outcome Int :=
  match fs procdir_swaps with
  | .error err => .ret 0 (some err)
  | .ok dat =>
    match index (Split '\n' dat) 1 with
    | none => .panic
    | some line =>
      if line = [] then .ret 0 (some noSwapPartition)
      else
        match swapColumn line k with
        | none => .panic
        | some t =>
          match Atoi t with
          | (_, some err) => .ret 0 (some err)
          | (s, none) => .ret s none

/-- `GetSwapFilename()`. -/
def GetSwapFilename (fs : GoString → Except GoError GoString) : Outcome GoString :=
  swapText fs 0

/-- `GetSwapType()`. -/
def GetSwapType (fs : GoString → Except GoError GoString) : Outcome GoString :=
  swapText fs 1

/-- `GetSwapSize()`. -/
def GetSwapSize (fs : GoString → Except GoError GoString) : Outcome Int :=
  swapInt fs 2

/-- `GetSwapUsed()`. -/
def GetSwapUsed (fs : GoString → Except GoError GoString) : Outcome Int :=
  swapInt fs 3

/-- `GetSwapPriority()`. -/
def GetSwapPriority (fs : GoString → Except GoError GoString) : Outcome Int :=
  swapInt fs 4

/-- The body shared by the ten `GetCpu...Time` readers, which differ in the
index `k` only: the error of `strconv.Atoi` is formatted and dropped, and the
value `s` that `strconv.Atoi` returned goes out with a nil error. -/
def cpuTime (fs : GoString → Except GoError GoString) (k : Int) : Outcome Int :=
  match fs procdir_stat with
  | .error err => .ret 0 (some err)
  | .ok dat =>
    match index (Split ' ' dat) k with
    | none => .panic
    | some dat_s => .ret (Atoi dat_s).1 none

/-- `GetCpuUserTime()`. -/
def GetCpuUserTime (fs : GoString → Except GoError GoString) : Outcome Int := cpuTime fs 2

/-- `GetCpuNiceTime()`. -/
def GetCpuNiceTime (fs : GoString → Except GoError GoString) : Outcome Int := cpuTime fs 3

/-- `GetCpuSystemTime()`. -/
def GetCpuSystemTime (fs : GoString → Except GoError GoString) : Outcome Int := cpuTime fs 4

/-- `GetCpuIdleTime()`. -/
def GetCpuIdleTime (fs : GoString → Except GoError GoString) : Outcome Int := cpuTime fs 5

/-- `GetCpuIowaitTime()`. -/
def GetCpuIowaitTime (fs : GoString → Except GoError GoString) : Outcome Int := cpuTime fs 6

/-- `GetCpuIrqTime()`. -/
def GetCpuIrqTime (fs : GoString → Except GoError GoString) : Outcome Int := cpuTime fs 7

/-- `GetCpuSoftirqTime()`. -/
def GetCpuSoftirqTime (fs : GoString → Except GoError GoString) : Outcome Int := cpuTime fs 8

/-- `GetCpuStealTime()`. -/
def GetCpuStealTime (fs : GoString → Except GoError GoString) : Outcome Int := cpuTime fs 9

/-- `GetCpuGuestTime()`. -/
def GetCpuGuestTime (fs : GoString → Except GoError GoString) : Outcome Int := cpuTime fs 10

/-- `GetCpuGuestNiceTime()`. -/
def GetCpuGuestNiceTime (fs : GoString → Except GoError GoString) : Outcome Int :=
  cpuTime fs 11

/-- `GetProcessesBlockedSize()` (the `fmt.Println` is left out). -/
def GetProcessesBlockedSize (fs : GoString → Except GoError GoString) : Outcome Int :=
  match fs procdir_stat with
  | .error err => .ret 0 (some err)
  | .ok dat =>
    match index (Split ' ' dat) 14 with
    | none => .panic
    | some dat_s =>
      match index (Split ' ' dat_s) 1 with
      | none => .panic
      | some t =>
        match Atoi t with
        | (_, some err) => .ret 0 (some err)
        | (blksz, none) => .ret blksz none

/-- The bytes that the memory readers go on with after `os.ReadFile`: its
error is formatted and dropped, and the data of a file that could not be opened
is empty. -/
def readIgnoringError (fs : GoString → Except GoError GoString) (path : GoString) :
    GoString :=
  match fs path with
  | .error _ => []
  | .ok dat => dat

/-- The statement pair
`s, err := strconv.Atoi(strings.Fields(dat_s[n])[1]); if err != nil { return 0, err }`
of the memory readers, followed by the rest `cont s`. -/
def memField (dat_s : List GoString) (n : Int) (cont : Int → Outcome Int) : Outcome Int :=
  match index dat_s n with
  | none => .panic
  | some line =>
    match index (Fields line) 1 with
    | none => .panic
    | some t =>
      match Atoi t with
      | (_, some err) => .ret 0 (some err)
      | (s, none) => cont s

/-- `GetMemTotal()`. -/
def GetMemTotal (fs : GoString → Except GoError GoString) : Outcome Int :=
  memField (Split '\n' (readIgnoringError fs procdir_meminfo)) 0 fun s => .ret s none

/-- `GetMemFree()`. -/
def GetMemFree (fs : GoString → Except GoError GoString) : Outcome Int :=
  memField (Split '\n' (readIgnoringError fs procdir_meminfo)) 1 fun s => .ret s none

/-- `GetMemUsed()`. -/
def GetMemUsed (fs : GoString → Except GoError GoString) : Outcome Int :=
  let dat_s := Split '\n' (readIgnoringError fs procdir_meminfo)
  memField dat_s 0 fun t =>
  memField dat_s 1 fun f =>
  .ret (wrap64 (t - f)) none

/-- `GetMemAvailable()`. -/
def GetMemAvailable (fs : GoString → Except GoError GoString) : Outcome Int :=
  memField (Split '\n' (readIgnoringError fs procdir_meminfo)) 2 fun s => .ret s none

/-- `GetMemBuffers()`. -/
def GetMemBuffers (fs : GoString → Except GoError GoString) : Outcome Int :=
  memField (Split '\n' (readIgnoringError fs procdir_meminfo)) 3 fun s => .ret s none

/-- `GetMemCached()`. -/
def GetMemCached (fs : GoString → Except GoError GoString) : Outcome Int :=
  memField (Split '\n' (readIgnoringError fs procdir_meminfo)) 4 fun s => .ret s none

/-- `GetKernelRelease()`. -/
def GetKernelRelease (fs : GoString → Except GoError GoString) : Outcome GoString :=
  match fs procdir_osrelease with
  | .error err => .ret [] (some err)
  | .ok dat => .ret dat none

/-! ## Concrete contents of the files of `/proc` -/

/-- A file system in which no file can be read (`ENOENT`). -/
def unreadable : GoString → Except GoError GoString :=
  fun q => .error (.os q 2)

/-- A content of `/proc/loadavg`. -/
def loadavgText : GoString := "0.20 0.18 0.12 1/80 11206\n".toList

/-- A content of `/proc/swaps` with one swap device, the columns separated by
runs of spaces and tabs. -/
def swapsText : GoString :=
  "Filename\t\t\t\tType\t\tSize\t\tUsed\t\tPriority\n/dev/sda2                               partition\t8388604\t\t1024\t\t-2\n".toList

/-- A content of `/proc/swaps` without a swap device: the header line only. -/
def swapsHeader : GoString :=
  "Filename\t\t\t\tType\t\tSize\t\tUsed\t\tPriority\n".toList

/-- A content of `/proc/stat`; the tenth counter of the `cpu` line is 7 and
three processes are blocked. -/
def statText : GoString :=
  "cpu  10132153 290696 3084719 46828483 16683 0 25195 0 175628 7\ncpu0 1393280 32966 572056 13343292 6130 0 17875 0 23933 0\nintr 1462898\nctxt 115315\nbtime 1172112\nprocesses 8804\nprocs_running 1\nprocs_blocked 3\n".toList

/-- A content of `/proc/stat` that is the `cpu` line only, its tenth counter
being 10. -/
def statOneLine : GoString := "cpu  1 2 3 4 5 6 7 8 9 10\n".toList

/-- A content of `/proc/stat` whose ten counters are no numbers. -/
def statBad : GoString := "cpu  a b c d e f g h i j\n".toList

/-! ## Columns of a line, in the words of the specification -/

/-- A run of blanks: spaces and tabs only (possibly none). -/
def isBlankRun (s : GoString) : Prop := ∀ c ∈ s, c = ' ' ∨ c = '\t'

/-- A column: one or more ASCII bytes, none of them white space. -/
def isColumn (s : GoString) : Prop :=
  s ≠ [] ∧ ∀ c ∈ s, c.toNat < 128 ∧ isSpace c = false

instance (s : GoString) : Decidable (isBlankRun s) := by unfold isBlankRun; infer_instance

instance (s : GoString) : Decidable (isColumn s) := by unfold isColumn; infer_instance

/-! ## The integer fields of a record by position -/

/-- The integer field at position `j` of the struct `Procstat`, for the
positions 3 (`Ppid`) to 23 (`Rss`) that precede `Rsslim`, which is at
position 24. -/
def intFieldAt (p : Procstat) (j : Nat) : Int :=
  match j with
  | 3 => p.Ppid
  | 4 => p.Pgrp
  | 5 => p.Session
  | 6 => p.TtyNr
  | 7 => p.Tpgid
  | 8 => p.Flags
  | 9 => p.Minflt
  | 10 => p.Cminflt
  | 11 => p.Majflt
  | 12 => p.Cmajflt
  | 13 => p.Utime
  | 14 => p.Stime
  | 15 => p.Cutime
  | 16 => p.Cstime
  | 17 => p.Priority
  | 18 => p.Nice
  | 19 => p.NumThreads
  | 20 => p.Itrealvalue
  | 21 => p.Starttime
  | 22 => p.Vsize
  | 23 => p.Rss
  | _ => 0

/-! ## The lines of `/proc/meminfo`, in the words of the specification -/

/-- A line of the form `Key: value kB`: the key with its colon, a run of
blanks, the value, and the rest of the line (the unit). -/
structure MemLine where
  key : GoString
  sep : GoString
  value : GoString
  rest : GoString

/-- The text of the line. -/
def MemLine.text (m : MemLine) : GoString :=
  m.key ++ (m.sep ++ (m.value ++ m.rest))

/-- The line is well formed: the key is a column, the run of blanks is not
empty, the value is a decimal integer in the range of `int`, and the rest is
empty or begins with a blank and holds no newline. -/
def MemLine.wellFormed (m : MemLine) : Prop :=
  isColumn m.key ∧ isBlankRun m.sep ∧ m.sep ≠ [] ∧ isSignedDecimal m.value ∧
  (m.rest = [] ∨ ∃ b r, m.rest = b :: r ∧ (b = ' ' ∨ b = '\t') ∧ '\n' ∉ r)

/-- A content of `/proc/meminfo`. -/
def meminfoText : GoString :=
  "MemTotal:       16316412 kB\nMemFree:         1234567 kB\nMemAvailable:    9876543 kB\nBuffers:          200000 kB\nCached:          3000000 kB\nSwapCached:            0 kB\n".toList

/-! ## Lemmas on the library functions and on the parser -/

theorem index_natCast {α : Type} (l : List α) (n : Nat) : index l (n : Int) = l.get? n := by
  simp [index]

theorem index_add_lit {α : Type} (l : List α) (k n : Nat) [n.AtLeastTwo] :
    index l ((k : Int) + (no_index (OfNat.ofNat n))) = l.get? (k + OfNat.ofNat n) := by
  have h : ((k : Int) + (OfNat.ofNat n : Int)) = ((k + n : Nat) : Int) := by
    push_cast; rfl
  rw [h, index_natCast]; rfl

theorem index_lit {α : Type} (l : List α) (n : Nat) [n.AtLeastTwo] :
    index l (no_index (OfNat.ofNat n)) = l.get? (OfNat.ofNat n) := by
  have h : ((OfNat.ofNat n : Int)) = ((n : Nat) : Int) := rfl
  rw [h, index_natCast]; rfl

theorem get?_tok (l : List GoString) (n : Nat) (h : n < l.length) :
    l.get? n = some (tok l n) := by
  simp [tok, List.getD, List.getElem?_eq_getElem h]

theorem index_zero {α : Type} (l : List α) : index l 0 = l.get? 0 := by
  simp [index]

theorem index_one {α : Type} (l : List α) : index l 1 = l.get? 1 := by
  simp [index]

theorem atoiField_of_index (l : List GoString) (k : Int) (t : GoString)
    (cont : Int → Outcome Procstat) (hi : index l k = some t) (hd : isDec t) :
    atoiField l k cont = cont (decVal t) := by
  unfold atoiField
  rw [hi]
  unfold isDec at hd
  unfold decVal
  rcases h : Atoi t with ⟨v, e⟩
  rw [h] at hd
  simp only at hd
  subst hd
  simp only [h]

theorem atoiField_zero (l : List GoString) (cont : Int → Outcome Procstat)
    (hlt : 0 < l.length) (hd : isDec (tok l 0)) :
    atoiField l 0 cont = cont (decVal (tok l 0)) :=
  atoiField_of_index l 0 _ cont (by rw [index_zero, get?_tok l 0 hlt]) hd

theorem atoiField_add_lit (l : List GoString) (k n : Nat) [n.AtLeastTwo]
    (cont : Int → Outcome Procstat) (hlt : k + OfNat.ofNat n < l.length)
    (hd : isDec (tok l (k + OfNat.ofNat n))) :
    atoiField l ((k : Int) + (no_index (OfNat.ofNat n))) cont
      = cont (decVal (tok l (k + OfNat.ofNat n))) :=
  atoiField_of_index l _ _ cont (by rw [index_add_lit, get?_tok l _ hlt]) hd

theorem writeWords_eq (l : List GoString) :
    ∀ (n j : Nat) (acc : GoString), j + n ≤ l.length →
      writeWords l n (j : Int) acc = some (acc ++ ((l.drop j).take n).flatten) := by
  intro n
  induction n with
  | zero => intro j acc _; simp [writeWords]
  | succ n ih =>
    intro j acc h
    have hj : j < l.length := by omega
    have hstep := ih (j + 1) (acc ++ l[j]) (by omega)
    rw [writeWords, index_natCast, List.get?_eq_getElem?, List.getElem?_eq_getElem hj]
    simp only
    have hc : ((j : Int) + 1) = ((j + 1 : Nat) : Int) := by push_cast; rfl
    rw [hc, hstep, List.drop_eq_getElem_cons hj]
    simp only [List.take_succ_cons, List.flatten_cons, List.append_assoc]

theorem commOffset_eq (l : List GoString) (k : Nat) (hlen : l.length = 52 + k) :
    commOffset l = (k : Int) := by
  unfold commOffset
  simp only [hlen]
  push_cast
  split <;> omega

theorem commOf_eq (l : List GoString) (k : Nat) (hlen : l.length = 52 + k) :
    commOf l = slice (nameWords l) 1 (((nameWords l).length : Int) - 1) := by
  unfold commOf nameWords
  by_cases hk : k = 0
  · subst hk
    have h1 : 1 < l.length := by omega
    simp only [hlen]
    simp only [Nat.add_zero, Nat.cast_ofNat, sub_self, ne_eq, not_true_eq_false, ↓reduceIte,
      index_one, List.get?_eq_getElem?, List.getElem?_eq_getElem h1]
    have : (List.take (52 - 51) (List.drop 1 l)) = [l[1]] := by
      rw [List.drop_eq_getElem_cons h1]; rfl
    rw [this]; simp
  · have hne : (52 : Int) - ((l.length : Nat) : Int) ≠ 0 := by omega
    simp only [ne_eq, hne, not_false_eq_true, ↓reduceIte]
    have hn : ((52 - (l.length : Int)) * -1 + 2 - 1).toNat = k + 1 := by omega
    have h := writeWords_eq l (k + 1) 1 [] (by omega)
    simp only [Nat.cast_one, List.nil_append] at h
    rw [hn, h]
    have : l.length - 51 = k + 1 := by omega
    rw [this]

theorem slice_inner (a b : Char) (mid : GoString) :
    slice (a :: (mid ++ [b])) 1 (((a :: (mid ++ [b])).length : Int) - 1) = some mid := by
  unfold slice
  have h : (1 : Int) ≤ ((a :: (mid ++ [b])).length : Int) - 1 := by
    simp only [List.length_cons, List.length_append, List.length_nil]; omega
  rw [if_pos ⟨by omega, h, by omega⟩]
  have h2 : (((a :: (mid ++ [b])).length : Int) - 1).toNat - (1 : Int).toNat = mid.length := by
    simp only [List.length_cons, List.length_append, List.length_nil]; omega
  rw [h2]
  simp

theorem slice_dropLast (s : GoString) (c : Char) :
    slice (s ++ [c]) 0 (((s ++ [c]).length : Int) - 1) = some s := by
  unfold slice
  have h : (0 : Int) ≤ ((s ++ [c]).length : Int) - 1 := by
    simp only [List.length_append, List.length_cons, List.length_nil]; omega
  rw [if_pos ⟨by omega, h, by omega⟩]
  have h2 : (((s ++ [c]).length : Int) - 1).toNat - (0 : Int).toNat = s.length := by
    simp only [List.length_append, List.length_cons, List.length_nil]; omega
  rw [h2]
  simp

theorem Atoi_of_isDec {t : GoString} (h : isDec t) : Atoi t = (decVal t, none) := by
  unfold isDec at h
  unfold decVal
  rcases h1 : Atoi t with ⟨v, e⟩
  rw [h1] at h
  simp only at h
  subst h
  rfl

/-- Success of the parser: on a line of `52 + k` tokens whose tokens all pass,
the result is the record of the positional tokens. -/
theorem parseStat_eq_recordOf (dat : GoString) (k : Nat) (comm exitTok : GoString)
    (hlen : (Split ' ' dat).length = 52 + k)
    (h0 : isDec (tok (Split ' ' dat) 0))
    (hcomm : commOf (Split ' ' dat) = some comm)
    (hint : ∀ j, intField j → isDec (tok (Split ' ' dat) (k + j)))
    (hlast : slice (tok (Split ' ' dat) (k + 51)) 0
      (((tok (Split ' ' dat) (k + 51)).length : Int) - 1) = some exitTok)
    (hexit : isDec exitTok) :
    parseStat dat = .ret (recordOf (Split ' ' dat) k comm exitTok) none := by
  unfold parseStat
  simp only []
  rw [commOffset_eq _ k hlen, hcomm, atoiField_zero _ _ (by omega) h0]
  simp (disch := first | omega | exact hint _ (by decide)) only
    [atoiField_add_lit, index_add_lit, index_lit, get?_tok, hlast, Atoi_of_isDec hexit]
  rfl

theorem atoiField_ret_iff (l : List GoString) (k : Int) (t : GoString)
    (cont : Int → Outcome Procstat) (p : Procstat) (hi : index l k = some t) :
    atoiField l k cont = .ret p none ↔ isDec t ∧ cont (decVal t) = .ret p none := by
  unfold atoiField isDec decVal
  rw [hi]
  rcases h : Atoi t with ⟨v, e⟩
  cases e with
  | none => simp [h]
  | some e => simp [h]

theorem atoiField_zero_ret_iff (l : List GoString) (cont : Int → Outcome Procstat)
    (p : Procstat) (hlt : 0 < l.length) :
    atoiField l 0 cont = .ret p none
      ↔ isDec (tok l 0) ∧ cont (decVal (tok l 0)) = .ret p none :=
  atoiField_ret_iff l 0 _ cont p (by rw [index_zero, get?_tok l 0 hlt])

theorem atoiField_add_lit_ret_iff (l : List GoString) (k n : Nat) [n.AtLeastTwo]
    (cont : Int → Outcome Procstat) (p : Procstat)
    (hlt : k + OfNat.ofNat n < l.length) :
    atoiField l ((k : Int) + (no_index (OfNat.ofNat n))) cont = .ret p none
      ↔ isDec (tok l (k + OfNat.ofNat n))
        ∧ cont (decVal (tok l (k + OfNat.ofNat n))) = .ret p none :=
  atoiField_ret_iff l _ _ cont p (by rw [index_add_lit, get?_tok l _ hlt])

theorem Split_ne_nil (sep : Char) (s : GoString) : Split sep s ≠ [] := by
  induction s with
  | nil => simp [Split]
  | cons c cs ih =>
    unfold Split
    split
    · simp
    · split <;> simp

theorem Split_length_pos (sep : Char) (s : GoString) : 0 < (Split sep s).length :=
  List.length_pos.mpr (Split_ne_nil sep s)

theorem writeWords_zero (l : List GoString) (j : Int) (acc : GoString) :
    writeWords l 0 j acc = some acc := rfl

theorem commOf_short (l : List GoString) (h : l.length < 52) : commOf l = none := by
  unfold commOf
  have hne : (52 : Int) - ((l.length : Nat) : Int) ≠ 0 := by omega
  simp only [ne_eq, hne, not_false_eq_true, ↓reduceIte]
  have hn : ((52 - (l.length : Int)) * -1 + 2 - 1).toNat = 0 := by omega
  rw [hn, writeWords_zero]
  rfl

/-- Inversion of a successful parse: the line has `52 + k` tokens, every token
read passes, and the record is the record of the positional tokens. -/
theorem parseStat_ret_inv (dat : GoString) (p : Procstat)
    (h : parseStat dat = .ret p none) :
    ∃ (k : Nat) (comm exitTok : GoString),
      (Split ' ' dat).length = 52 + k ∧
      isDec (tok (Split ' ' dat) 0) ∧
      commOf (Split ' ' dat) = some comm ∧
      (∀ j, intField j → isDec (tok (Split ' ' dat) (k + j))) ∧
      slice (tok (Split ' ' dat) (k + 51)) 0
        (((tok (Split ' ' dat) (k + 51)).length : Int) - 1) = some exitTok ∧
      isDec exitTok ∧
      p = recordOf (Split ' ' dat) k comm exitTok := by
  have hpos := Split_length_pos ' ' dat
  unfold parseStat at h
  simp only [] at h
  rw [atoiField_zero_ret_iff _ _ _ hpos] at h
  obtain ⟨h0, h⟩ := h
  by_cases hshort : (Split ' ' dat).length < 52
  · rw [commOf_short _ hshort] at h
    simp at h
  obtain ⟨k, hk⟩ : ∃ k, (Split ' ' dat).length = 52 + k := ⟨(Split ' ' dat).length - 52, by omega⟩
  rw [commOffset_eq _ k hk] at h
  rcases hc : commOf (Split ' ' dat) with _ | comm
  · rw [hc] at h
    simp at h
  rw [hc] at h
  simp (disch := omega) only
    [atoiField_add_lit_ret_iff, index_add_lit, index_lit, get?_tok] at h
  rcases hs : slice (tok (Split ' ' dat) (k + 51)) 0
      (((tok (Split ' ' dat) (k + 51)).length : Int) - 1) with _ | exitTok
  · rw [hs] at h
    simp at h
  rw [hs] at h
  simp only at h
  by_cases he : isDec exitTok
  · rw [Atoi_of_isDec he] at h
    simp only [Outcome.ret.injEq, and_true] at h
    refine ⟨k, comm, exitTok, hk, h0, rfl, ?_, hs, he, ?_⟩
    · intro j hj
      unfold intField at hj
      have h3 : 3 ≤ j := by omega
      have h50 : j ≤ 50 := by omega
      have h24 : j ≠ 24 := by omega
      interval_cases j <;> first | exact absurd rfl h24 | simp only [h]
    · unfold recordOf
      simp only [h]
  · exfalso
    unfold isDec at he
    rcases ha : Atoi exitTok with ⟨v, e⟩
    rw [ha] at h he
    cases e with
    | none => exact he rfl
    | some e => simp at h

/-! ## `strconv.Atoi` accepts exactly the decimal integers in range -/

theorem foldl_digits_ge (ds : GoString) :
    ∀ n : Nat, n ≤ ds.foldl (fun n c => n * 10 + digitVal c) n := by
  induction ds with
  | nil => intro n; exact Nat.le_refl n
  | cons c cs ih =>
    intro n
    simp only [List.foldl_cons]
    exact Nat.le_trans (by omega) (ih (n * 10 + digitVal c))

theorem parseUintLoop_digits (ds : GoString) :
    ∀ n : Nat, n ≤ maxUint64 → (∀ c ∈ ds, isDecDigit c = true) →
      parseUintLoop ds n =
        if ds.foldl (fun n c => n * 10 + digitVal c) n ≤ maxUint64
        then .val (ds.foldl (fun n c => n * 10 + digitVal c) n) else .range := by
  induction ds with
  | nil => intro n hn _; simp [parseUintLoop, hn]
  | cons c cs ih =>
    intro n hn hd
    have hc : isDecDigit c = true := hd c (List.mem_cons_self c cs)
    have hcs : ∀ x ∈ cs, isDecDigit x = true := fun x hx => hd x (List.mem_cons_of_mem c hx)
    have hge := foldl_digits_ge cs (n * 10 + digitVal c)
    simp only [parseUintLoop, hc, ↓reduceIte, List.foldl_cons]
    have hmax : maxUint64 = 18446744073709551615 := by decide
    by_cases h1 : maxUint64 / 10 + 1 ≤ n
    · rw [if_pos h1, if_neg]
      rw [hmax] at h1 ⊢
      omega
    · rw [if_neg h1]
      by_cases h2 : maxUint64 < n * 10 + digitVal c
      · rw [if_pos h2, if_neg]
        omega
      · rw [if_neg h2]
        exact ih (n * 10 + digitVal c) (by omega) hcs

theorem parseUintLoop_val (ds : GoString) :
    ∀ n v : Nat, parseUintLoop ds n = .val v → ∀ c ∈ ds, isDecDigit c = true := by
  induction ds with
  | nil => intro n v _ c hc; simp at hc
  | cons a cs ih =>
    intro n v h c hc
    unfold parseUintLoop at h
    by_cases ha : isDecDigit a = true
    · rw [if_pos ha] at h
      by_cases h1 : maxUint64 / 10 + 1 ≤ n
      · rw [if_pos h1] at h; simp at h
      · rw [if_neg h1] at h
        by_cases h2 : maxUint64 < n * 10 + digitVal a
        · rw [if_pos h2] at h; simp at h
        · rw [if_neg h2] at h
          rcases List.mem_cons.mp hc with rfl | hc
          · exact ha
          · exact ih _ v h c hc
    · rw [if_neg ha] at h; simp at h

theorem ParseUint_val_iff (s : GoString) (v : Nat) :
    ParseUint s = .val v ↔
      s ≠ [] ∧ (∀ c ∈ s, isDecDigit c = true) ∧ v = digitsValue s ∧ v ≤ maxUint64 := by
  cases s with
  | nil => simp [ParseUint]
  | cons a cs =>
    have hP : ParseUint (a :: cs) = parseUintLoop (a :: cs) 0 := rfl
    rw [hP]
    constructor
    · intro h
      have hd := parseUintLoop_val _ _ _ h
      rw [parseUintLoop_digits _ 0 (by decide) hd] at h
      unfold digitsValue
      by_cases hle : (a :: cs).foldl (fun n c => n * 10 + digitVal c) 0 ≤ maxUint64
      · rw [if_pos hle] at h
        simp only [UintResult.val.injEq] at h
        exact ⟨by simp, hd, h.symm, h ▸ hle⟩
      · rw [if_neg hle] at h; simp at h
    · rintro ⟨_, hd, hv, hle⟩
      rw [parseUintLoop_digits _ 0 (by decide) hd]
      unfold digitsValue at hv
      rw [← hv, if_pos hle]

/-- The texts that `strconv.Atoi` accepts are the decimal integers with an
optional sign in the range of `int`, and the value returned is the integer the
text denotes. -/
theorem isDec_iff_isSignedDecimal (t : GoString) :
    isDec t ↔ isSignedDecimal t := by
  have hmax : maxUint64 = 18446744073709551615 := by decide
  cases t with
  | nil => simp [isDec, Atoi, isSignedDecimal, unsignedPart]
  | cons c cs =>
    have hbody : (if c = '+' ∨ c = '-' then cs else c :: cs) = unsignedPart (c :: cs) := rfl
    unfold isDec Atoi
    simp only [hbody]
    unfold isSignedDecimal signedValue isNegative
    rcases hp : ParseUint (unsignedPart (c :: cs)) with un | _ | _
    · obtain ⟨hne, hd, hv, hle⟩ := (ParseUint_val_iff _ _).mp hp
      rw [← hv]
      by_cases hneg : c = '-'
      · simp only [hneg, decide_True, Bool.not_true, Bool.false_eq_true, false_and,
          ↓reduceIte, true_and]
        by_cases h2 : 2 ^ 63 < un
        · rw [if_pos h2]
          simp only [reduceCtorEq, false_iff, not_and, not_le]
          intro _ _ _
          omega
        · rw [if_neg h2]
          simp only [true_iff]
          subst hneg
          exact ⟨hne, hd, by omega, by omega⟩
      · simp only [hneg, decide_False, Bool.not_false, true_and, false_and, ↓reduceIte,
          Bool.false_eq_true]
        by_cases h2 : 2 ^ 63 ≤ un
        · rw [if_pos h2]
          simp only [reduceCtorEq, false_iff, not_and, not_le]
          intro _ _ _
          omega
        · rw [if_neg h2]
          simp only [true_iff]
          exact ⟨hne, hd, by omega, by omega⟩
    · have hnot : ¬ (unsignedPart (c :: cs) ≠ [] ∧
          ∀ x ∈ unsignedPart (c :: cs), isDecDigit x = true) := by
        rintro ⟨hne, hd⟩
        cases hu : unsignedPart (c :: cs) with
        | nil => exact hne hu
        | cons a as =>
          rw [hu] at hp hd
          have hP : ParseUint (a :: as) = parseUintLoop (a :: as) 0 := rfl
          rw [hP, parseUintLoop_digits _ 0 (by decide) hd] at hp
          split at hp <;> simp at hp
      simp only [reduceCtorEq, false_iff]
      rintro ⟨hne, hd, _⟩
      exact hnot ⟨hne, hd⟩
    · have hbig : unsignedPart (c :: cs) ≠ [] →
          (∀ x ∈ unsignedPart (c :: cs), isDecDigit x = true) →
          maxUint64 < digitsValue (unsignedPart (c :: cs)) := by
        intro hne hd
        cases hu : unsignedPart (c :: cs) with
        | nil => exact absurd hu hne
        | cons a as =>
          rw [hu] at hp hd
          have hP : ParseUint (a :: as) = parseUintLoop (a :: as) 0 := rfl
          rw [hP, parseUintLoop_digits _ 0 (by decide) hd] at hp
          unfold digitsValue
          by_contra hle
          rw [if_pos (by omega)] at hp
          simp at hp
      by_cases hneg : c = '-'
      · simp only [hneg, decide_True, ↓reduceIte, reduceCtorEq, false_iff, not_and, not_le]
        intro hne hd
        have := hbig (by rw [hneg]; exact hne) (by rw [hneg]; exact hd)
        rw [hneg] at this
        omega
      · simp only [hneg, decide_False, ↓reduceIte, reduceCtorEq, false_iff, not_and, not_le,
          Bool.false_eq_true]
        intro hne hd
        have := hbig hne hd
        omega

/-- The value that `strconv.Atoi` returns for a text it accepts is the integer
the text denotes. -/
theorem decVal_eq_signedValue (t : GoString) (h : isDec t) : decVal t = signedValue t := by
  have hs := (isDec_iff_isSignedDecimal t).mp h
  cases t with
  | nil => simp [isDec, Atoi] at h
  | cons c cs =>
    have hbody : (if c = '+' ∨ c = '-' then cs else c :: cs) = unsignedPart (c :: cs) := rfl
    obtain ⟨hne, hd, hlo, hhi⟩ := hs
    have hp : ParseUint (unsignedPart (c :: cs))
        = .val (digitsValue (unsignedPart (c :: cs))) := by
      rw [ParseUint_val_iff]
      refine ⟨hne, hd, rfl, ?_⟩
      have hmax : maxUint64 = 18446744073709551615 := by decide
      unfold signedValue at hlo hhi
      by_cases hn : isNegative (c :: cs) = true
      · rw [if_pos hn] at hlo hhi; omega
      · rw [if_neg hn] at hlo hhi; omega
    unfold decVal Atoi
    simp only [hbody, hp]
    unfold signedValue isNegative at hlo hhi ⊢
    by_cases hneg : c = '-'
    · simp only [hneg, decide_True, ↓reduceIte, Bool.not_true, Bool.false_eq_true, false_and,
        true_and] at hlo hhi ⊢
      rw [if_neg (by omega)]
    · simp only [hneg, decide_False, ↓reduceIte, Bool.false_eq_true, Bool.not_false,
        true_and, false_and] at hlo hhi ⊢
      rw [if_neg (by omega)]

/-! ## The claims on `GetProcessStat` -/

theorem Split_cons_sep (sep : Char) (cs : GoString) :
    Split sep (sep :: cs) = [] :: Split sep cs := by
  rw [Split, if_pos rfl]

theorem Split_cons_ne (sep a : Char) (ha : a ≠ sep) (cs : GoString) :
    Split sep (a :: cs) = (a :: (Split sep cs).headD []) :: (Split sep cs).tail := by
  rw [Split, if_neg ha]
  rcases hs : Split sep cs with _ | ⟨t, ts⟩
  · exact absurd hs (Split_ne_nil sep cs)
  · rfl

theorem Split_snoc (sep c : Char) (hc : c ≠ sep) (s : GoString) :
    Split sep (s ++ [c])
      = (Split sep s).dropLast ++ [(Split sep s).getLastD [] ++ [c]] := by
  induction s with
  | nil => simp [Split, hc]
  | cons a s ih =>
    have hne := Split_ne_nil sep s
    by_cases ha : a = sep
    · subst ha
      simp only [List.cons_append, Split_cons_sep]
      rw [ih]
      rcases hs : Split a s with _ | ⟨t, ts⟩
      · exact absurd hs hne
      · simp
    · simp only [List.cons_append, Split_cons_ne sep a ha]
      rw [ih]
      rcases hs : Split sep s with _ | ⟨t, ts⟩
      · exact absurd hs hne
      · cases ts with
        | nil => simp
        | cons u us => simp

/-- The last token of a line that ends in a newline ends in that newline. -/
theorem tok_last_newline (body : GoString) (n : Nat)
    (hlen : (Split ' ' (body ++ ['\n'])).length = n + 1) :
    ∃ t, tok (Split ' ' (body ++ ['\n'])) n = t ++ ['\n'] := by
  rw [Split_snoc ' ' '\n' (by decide)] at hlen ⊢
  refine ⟨(Split ' ' body).getLastD [], ?_⟩
  simp only [List.length_append, List.length_dropLast, List.length_cons, List.length_nil] at hlen
  have hd : (Split ' ' body).dropLast.length = n := by
    simp only [List.length_dropLast]; omega
  unfold tok
  rw [List.getD_eq_getElem?_getD, List.getElem?_append_right (by omega)]
  simp [hd]

theorem getProcessStat_of_read (fs : GoString → Except GoError GoString) (pid : Int)
    (dat : GoString) (hread : fs (statFile pid) = .ok dat) :
    GetProcessStat fs pid = parseStat dat := by
  unfold GetProcessStat
  rw [hread]

theorem all_intField (P : Nat → Prop) (h : ∀ j < 51, intField j → P j) :
    ∀ j, intField j → P j := by
  intro j hj
  exact h j (by unfold intField at hj; omega) hj

theorem nameWords_52 (l : List GoString) (hlen : l.length = 52) : nameWords l = tok l 1 := by
  unfold nameWords tok
  have h1 : 1 < l.length := by omega
  have htake : List.take (l.length - 51) (List.drop 1 l) = [l[1]] := by
    rw [hlen, List.drop_eq_getElem_cons h1]; rfl
  rw [htake]
  simp [List.getD_eq_getElem?_getD, List.getElem?_eq_getElem h1]

/-- The parser on a line of exactly 52 tokens with a name token of at least two
bytes `a :: name ++ [b]` and a last token `exitTok ++ [c]`. -/
theorem parseStat_52 (dat name exitTok : GoString) (a b c : Char)
    (hlen : (Split ' ' dat).length = 52)
    (hname : tok (Split ' ' dat) 1 = a :: (name ++ [b]))
    (hlast : tok (Split ' ' dat) 51 = exitTok ++ [c])
    (h0 : isDec (tok (Split ' ' dat) 0))
    (hint : ∀ j, intField j → isDec (tok (Split ' ' dat) j))
    (hexit : isDec exitTok) :
    parseStat dat = .ret (recordOf (Split ' ' dat) 0 name exitTok) none := by
  refine parseStat_eq_recordOf dat 0 name exitTok hlen h0 ?_ ?_ ?_ hexit
  · rw [commOf_eq _ 0 hlen, nameWords_52 _ hlen, hname]
    exact slice_inner a b name
  · intro j hj
    rw [Nat.zero_add]
    exact hint j hj
  · rw [Nat.zero_add, hlast]
    exact slice_dropLast exitTok c

/-- C1 (evaluation at a failing input).  On the stat line whose name is
`my)weird proc`, `GetProcessStat` returns as `Rsslim` the text `100`, which is
the `rss` token, whereas on the same line with the one-word name `sh` it returns
the `rsslim` token `18446744073709551615`; `State`, `Rss` and `Startcode` are
the same on both lines. -/
theorem C1_rsslim_not_shifted :
    ∃ p q, GetProcessStat (oneFile (statFile 42) weirdLine) 42 = .ret p none ∧
      GetProcessStat (oneFile (statFile 42) plainLine) 42 = .ret q none ∧
      q.Rsslim = "18446744073709551615".toList ∧ p.Rsslim = "100".toList ∧
      p.Rss = 100 ∧ q.Rss = 100 ∧ p.Rsslim ≠ q.Rsslim ∧
      p.State = q.State ∧ p.Startcode = q.Startcode :=
  ⟨_, _, rfl, rfl, rfl, rfl, rfl, rfl, by decide, rfl, rfl⟩

/-- C2 (evaluation at a failing input).  On the stat line whose name is
`my)weird proc`, the bytes strictly between the first `(` and the last `)` are
`my)weird proc`, but the `Comm` that `GetProcessStat` returns is `my)weirdproc`:
the space inside the name is lost. -/
theorem C2_comm_loses_space :
    commDelimited weirdLine = "my)weird proc".toList ∧
    ∃ p, GetProcessStat (oneFile (statFile 42) weirdLine) 42 = .ret p none ∧
      p.Comm = "my)weirdproc".toList ∧ p.Comm ≠ commDelimited weirdLine :=
  ⟨by decide, _, rfl, rfl, by decide⟩

/-- C3.  For a stat line `dat` that ends in a newline, splits on single spaces
into exactly 52 tokens `l`, has the name token `(name)` and has a decimal
integer in the range of `int` at every integer position (token 51 without its
last byte, the newline), `GetProcessStat` returns, with a nil error, the record
whose fields are the positional tokens in struct order: the integer a token
denotes for an integer field, the token as text for `State` and `Rsslim`, and
`name` for `Comm`. -/
theorem C3_simple_name_record (fs : GoString → Except GoError GoString) (pid : Int)
    (dat body name : GoString) (l : List GoString)
    (hread : fs (statFile pid) = .ok dat)
    (hnl : dat = body ++ ['\n'])
    (hl : Split ' ' dat = l)
    (hlen : l.length = 52)
    (hname : tok l 1 = '(' :: (name ++ [')']))
    (h0 : isSignedDecimal (tok l 0))
    (hint : ∀ j, intField j → isSignedDecimal (tok l j))
    (hexit : isSignedDecimal (tok l 51).dropLast) :
    GetProcessStat fs pid = .ret
      {
        Pid := signedValue (tok l 0), Comm := name, State := tok l 2, Ppid := signedValue (tok l 3),
        Pgrp := signedValue (tok l 4), Session := signedValue (tok l 5), TtyNr := signedValue (tok l 6),
        Tpgid := signedValue (tok l 7), Flags := signedValue (tok l 8), Minflt := signedValue (tok l 9),
        Cminflt := signedValue (tok l 10), Majflt := signedValue (tok l 11),
        Cmajflt := signedValue (tok l 12), Utime := signedValue (tok l 13), Stime := signedValue (tok l 14),
        Cutime := signedValue (tok l 15), Cstime := signedValue (tok l 16),
        Priority := signedValue (tok l 17), Nice := signedValue (tok l 18),
        NumThreads := signedValue (tok l 19), Itrealvalue := signedValue (tok l 20),
        Starttime := signedValue (tok l 21), Vsize := signedValue (tok l 22), Rss := signedValue (tok l 23),
        Rsslim := tok l 24, Startcode := signedValue (tok l 25), Endcode := signedValue (tok l 26),
        Startstack := signedValue (tok l 27), Kstkesp := signedValue (tok l 28),
        Kstkeip := signedValue (tok l 29), Signal := signedValue (tok l 30),
        Blocked := signedValue (tok l 31), Sigignore := signedValue (tok l 32),
        Sigcatch := signedValue (tok l 33), Wchan := signedValue (tok l 34), Nswap := signedValue (tok l 35),
        Cnswap := signedValue (tok l 36), ExitSignal := signedValue (tok l 37),
        Processor := signedValue (tok l 38), RtPriority := signedValue (tok l 39),
        Policy := signedValue (tok l 40), DelayacctBlkioTicks := signedValue (tok l 41),
        GuestTime := signedValue (tok l 42), CguestTime := signedValue (tok l 43),
        StartData := signedValue (tok l 44), EndData := signedValue (tok l 45),
        StartBrk := signedValue (tok l 46), ArgStart := signedValue (tok l 47),
        ArgEnd := signedValue (tok l 48), EnvStart := signedValue (tok l 49),
        EnvEnd := signedValue (tok l 50), ExitCode := signedValue (tok l 51).dropLast }
      none := by
  subst hl
  rw [getProcessStat_of_read fs pid dat hread]
  obtain ⟨t, ht⟩ := tok_last_newline body 51 (by rw [← hnl]; exact hlen)
  rw [← hnl] at ht
  have hd : (tok (Split ' ' dat) 51).dropLast = t := by rw [ht]; simp
  rw [hd] at hexit ⊢
  have h0d := (isDec_iff_isSignedDecimal _).mpr h0
  have hintd : ∀ j, intField j → isDec (tok (Split ' ' dat) j) :=
    fun j hj => (isDec_iff_isSignedDecimal _).mpr (hint j hj)
  have hexitd := (isDec_iff_isSignedDecimal _).mpr hexit
  rw [parseStat_52 dat name t '(' ')' '\n' hlen hname ht h0d hintd hexitd]
  unfold recordOf
  simp (disch := first | exact h0d | exact hexitd | exact hintd _ (by decide)) only
    [decVal_eq_signedValue, Nat.zero_add]

/-- C3, at the line `bashLine`. -/
theorem C3_simple_name_record_witness :
    GetProcessStat (oneFile (statFile 1234) bashLine) 1234 = .ret
      {
        Pid := 1234, Comm := "bash".toList, State := "R".toList, Ppid := 1, Pgrp := 1234,
        Session := 1230, TtyNr := 34816, Tpgid := 1240, Flags := 4194304, Minflt := 101,
        Cminflt := 102, Majflt := 103, Cmajflt := 104, Utime := 105, Stime := 106,
        Cutime := 107, Cstime := 108, Priority := 20, Nice := -5, NumThreads := 1,
        Itrealvalue := 0, Starttime := 8000, Vsize := 12345678, Rss := 900,
        Rsslim := "4294967295".toList, Startcode := 4096, Endcode := 8192, Startstack := 16384,
        Kstkesp := 1, Kstkeip := 2, Signal := 3, Blocked := 4, Sigignore := 5, Sigcatch := 6,
        Wchan := 7, Nswap := 8, Cnswap := 9, ExitSignal := 17, Processor := 3,
        RtPriority := 50, Policy := 2, DelayacctBlkioTicks := 11, GuestTime := 12,
        CguestTime := 13, StartData := 14, EndData := 15, StartBrk := 16, ArgStart := 17,
        ArgEnd := 18, EnvStart := 19, EnvEnd := 20, ExitCode := -1 }
      none :=
  C3_simple_name_record (oneFile (statFile 1234) bashLine) 1234 bashLine bashLine.dropLast
    "bash".toList (Split ' ' bashLine) rfl rfl rfl (by decide) (by decide)
    (by decide) (all_intField _ (by decide)) (by decide)

/-- C4.  For a stat line `dat` that ends in a newline, splits into exactly 52
tokens `l`, has the name token `(name)` and has a decimal integer in
the range of `int` at every integer position, `GetProcessStat` succeeds and
`Rsslim` is token 24 as it stands: nothing is asked of token 24, which is never
passed to `strconv.Atoi`. -/
theorem C4_rsslim_literal (fs : GoString → Except GoError GoString) (pid : Int)
    (dat body name : GoString) (l : List GoString)
    (hread : fs (statFile pid) = .ok dat)
    (hnl : dat = body ++ ['\n'])
    (hl : Split ' ' dat = l)
    (hlen : l.length = 52)
    (hname : tok l 1 = '(' :: (name ++ [')']))
    (h0 : isSignedDecimal (tok l 0))
    (hint : ∀ j, intField j → isSignedDecimal (tok l j))
    (hexit : isSignedDecimal (tok l 51).dropLast) :
    ∃ p, GetProcessStat fs pid = .ret p none ∧ p.Rsslim = tok l 24 ∧
      p.Pid = signedValue (tok l 0) ∧ p.Comm = name ∧ p.State = tok l 2 ∧
      p.Ppid = signedValue (tok l 3) := by
  subst hl
  rw [getProcessStat_of_read fs pid dat hread]
  obtain ⟨t, ht⟩ := tok_last_newline body 51 (by rw [← hnl]; exact hlen)
  rw [← hnl] at ht
  have hd : (tok (Split ' ' dat) 51).dropLast = t := by rw [ht]; simp
  rw [hd] at hexit
  have h0d := (isDec_iff_isSignedDecimal _).mpr h0
  have hintd : ∀ j, intField j → isDec (tok (Split ' ' dat) j) :=
    fun j hj => (isDec_iff_isSignedDecimal _).mpr (hint j hj)
  have hexitd := (isDec_iff_isSignedDecimal _).mpr hexit
  rw [parseStat_52 dat name t '(' ')' '\n' hlen hname ht h0d hintd hexitd]
  refine ⟨_, rfl, rfl, ?_, rfl, rfl, ?_⟩
  · exact decVal_eq_signedValue _ h0d
  · have h3 := decVal_eq_signedValue _ (hintd 3 (by decide))
    exact h3

/-- C4, at the line of the specification's example: token 24 is
`18446744073709551615`, which `strconv.Atoi` rejects as out of range, and the
line parses to `Pid` 42, `Comm` `sh`, `State` `S`, `Ppid` 1 with `Rsslim` that
text. -/
theorem C4_rsslim_literal_witness :
    Atoi "18446744073709551615".toList
      = (9223372036854775807, some (.numRange "18446744073709551615".toList)) ∧
    ∃ p, GetProcessStat (oneFile (statFile 42) plainLine) 42 = .ret p none ∧
      p.Rsslim = "18446744073709551615".toList ∧ p.Pid = 42 ∧ p.Comm = "sh".toList ∧
      p.State = "S".toList ∧ p.Ppid = 1 :=
  ⟨by decide,
    C4_rsslim_literal (oneFile (statFile 42) plainLine) 42 plainLine plainLine.dropLast
      "sh".toList (Split ' ' plainLine) rfl rfl rfl (by decide) (by decide)
      (by decide) (all_intField _ (by decide)) (by decide)⟩

/-- C5 (evaluation at a failing input).  The record `spacedRecord`, whose name
is `my proc`, is rendered as a stat line and parsed back: `GetProcessStat`
returns, with a nil error, a record with the name `myproc` and with `Rsslim`
`100` (the `rss` token), which is not the record rendered. -/
theorem C5_round_trip_fails :
    ∃ p, GetProcessStat (oneFile (statFile 42) (renderStat spacedRecord)) 42 = .ret p none ∧
      p.Comm = "myproc".toList ∧ p.Rsslim = "100".toList ∧
      spacedRecord.Comm = "my proc".toList ∧
      spacedRecord.Rsslim = "18446744073709551615".toList ∧ p ≠ spacedRecord :=
  ⟨_, rfl, rfl, rfl, rfl, rfl, fun h => absurd (congrArg Procstat.Comm h) (by decide)⟩

theorem slice_zero_dropLast (s : GoString) (h : s ≠ []) :
    slice s 0 ((s.length : Int) - 1) = some s.dropLast := by
  obtain ⟨t, c, rfl⟩ : ∃ t c, s = t ++ [c] :=
    ⟨s.dropLast, s.getLast h, (List.dropLast_append_getLast h).symm⟩
  rw [slice_dropLast]
  simp

theorem slice_one_some (s : GoString) (h : 2 ≤ s.length) :
    ∃ m, slice s 1 ((s.length : Int) - 1) = some m := by
  unfold slice
  rw [if_pos ⟨by omega, by omega, by omega⟩]
  exact ⟨_, rfl⟩

theorem tok_mem (l : List GoString) (n : Nat) (h : n < l.length) : tok l n ∈ l := by
  unfold tok
  rw [List.getD_eq_getElem?_getD, List.getElem?_eq_getElem h]
  exact List.getElem_mem h

theorem atoiField_strict (l : List GoString) (k : Nat) (n : Int) (t : GoString)
    (cont : Int → Outcome Procstat) (hi : index l n = some t) (ht : isIntText l k t)
    (hc : ∀ v, (∃ p, cont v = .ret p none) ∨ FailsAtIntToken l k (cont v)) :
    (∃ p, atoiField l n cont = .ret p none) ∨ FailsAtIntToken l k (atoiField l n cont) := by
  unfold atoiField
  rw [hi]
  rcases h : Atoi t with ⟨v, e⟩
  cases e with
  | none => simp only [h]; exact hc v
  | some e => simp only [h]; exact Or.inr ⟨t, e, ht, by rw [h], rfl⟩

theorem atoiField_zero_strict (l : List GoString) (k : Nat)
    (cont : Int → Outcome Procstat) (hlt : 0 < l.length)
    (hc : ∀ v, (∃ p, cont v = .ret p none) ∨ FailsAtIntToken l k (cont v)) :
    (∃ p, atoiField l 0 cont = .ret p none) ∨ FailsAtIntToken l k (atoiField l 0 cont) :=
  atoiField_strict l k 0 _ cont (by rw [index_zero, get?_tok l 0 hlt]) (Or.inl rfl) hc

theorem atoiField_add_lit_strict (l : List GoString) (k n : Nat) [n.AtLeastTwo]
    (cont : Int → Outcome Procstat) (hlt : k + OfNat.ofNat n < l.length)
    (hn : intField (OfNat.ofNat n))
    (hc : ∀ v, (∃ p, cont v = .ret p none) ∨ FailsAtIntToken l k (cont v)) :
    (∃ p, atoiField l ((k : Int) + (no_index (OfNat.ofNat n))) cont = .ret p none) ∨
      FailsAtIntToken l k (atoiField l ((k : Int) + (no_index (OfNat.ofNat n))) cont) :=
  atoiField_strict l k _ _ cont (by rw [index_add_lit, get?_tok l _ hlt])
    (Or.inr (Or.inl ⟨_, hn, rfl⟩)) hc

/-- On a line of `52 + k` tokens whose name words have at least two bytes
together and whose last token is not empty, the parser does not panic: it
returns a record with a nil error, or it fails on an integer token. -/
theorem parseStat_strict (dat : GoString) (k : Nat)
    (hlen : (Split ' ' dat).length = 52 + k)
    (hname : 2 ≤ (nameWords (Split ' ' dat)).length)
    (hlast : tok (Split ' ' dat) (k + 51) ≠ []) :
    (∃ p, parseStat dat = .ret p none) ∨ FailsAtIntToken (Split ' ' dat) k (parseStat dat) := by
  obtain ⟨comm, hcomm⟩ := slice_one_some _ hname
  unfold parseStat
  simp only []
  rw [commOffset_eq _ k hlen, commOf_eq _ k hlen, hcomm]
  refine atoiField_zero_strict _ k _ (by omega) (fun _ => ?_)
  simp (disch := omega) only [index_add_lit, get?_tok]
  repeat' first
    | refine atoiField_add_lit_strict _ _ _ _ (by omega) (by decide) (fun _ => ?_)
    | simp (disch := omega) only [index_add_lit, index_lit, get?_tok]
  rw [slice_zero_dropLast _ hlast]
  simp only
  rcases h : Atoi (tok (Split ' ' dat) (k + 51)).dropLast with ⟨v, e⟩
  cases e with
  | none => exact Or.inl ⟨_, rfl⟩
  | some e => exact Or.inr ⟨_, e, Or.inr (Or.inr rfl), by rw [h], rfl⟩

theorem nameWords_eq (l : List GoString) (k : Nat) (hlen : l.length = 52 + k) :
    nameWords l = ((l.drop 1).take (k + 1)).flatten := by
  unfold nameWords
  have h : l.length - 51 = k + 1 := by omega
  rw [h]

/-- The two outcomes of the parser on a line of `52 + k` tokens whose name
words are `a :: comm ++ [b]` and whose last token is not empty: every integer
token passes and the result is the record of the tokens read at the offset `k`,
or the parser fails on an integer token. -/
theorem parseStat_dichotomy (dat comm : GoString) (a b : Char) (k : Nat)
    (hlen : (Split ' ' dat).length = 52 + k)
    (hname : (((Split ' ' dat).drop 1).take (k + 1)).flatten = a :: (comm ++ [b]))
    (hlast : tok (Split ' ' dat) (k + 51) ≠ []) :
    (isDec (tok (Split ' ' dat) 0) ∧
      (∀ j, intField j → isDec (tok (Split ' ' dat) (k + j))) ∧
      isDec (tok (Split ' ' dat) (k + 51)).dropLast ∧
      parseStat dat
        = .ret (recordOf (Split ' ' dat) k comm (tok (Split ' ' dat) (k + 51)).dropLast) none) ∨
    FailsAtIntToken (Split ' ' dat) k (parseStat dat) := by
  have hnw := nameWords_eq _ k hlen
  have hn2 : 2 ≤ (nameWords (Split ' ' dat)).length := by
    rw [hnw, hname]
    simp only [List.length_cons, List.length_append, List.length_nil]
    omega
  rcases parseStat_strict dat k hlen hn2 hlast with ⟨p, hp⟩ | hf
  · left
    obtain ⟨k1, comm1, exitTok, hk1, h0, hc, hint, hs, he, hrec⟩ := parseStat_ret_inv dat p hp
    have hkk : k1 = k := by omega
    subst hkk
    rw [slice_zero_dropLast _ hlast] at hs
    simp only [Option.some.injEq] at hs
    subst hs
    rw [commOf_eq _ k1 hlen, hnw, hname, slice_inner a b comm] at hc
    simp only [Option.some.injEq] at hc
    subst hc
    exact ⟨h0, hint, he, hp.trans (congrArg (fun q => Outcome.ret q none) hrec)⟩
  · exact Or.inr hf

theorem atoiField_error_zero (l : List GoString) (k : Int)
    (cont : Int → Outcome Procstat)
    (hc : ∀ v p e, cont v = .ret p (some e) → p = Procstat.zero) :
    ∀ p e, atoiField l k cont = .ret p (some e) → p = Procstat.zero := by
  intro p e h
  unfold atoiField at h
  rcases hi : index l k with _ | t
  · rw [hi] at h; simp at h
  · rw [hi] at h
    rcases ha : Atoi t with ⟨v, e1⟩
    cases e1 with
    | none => simp only [ha] at h; exact hc v p e h
    | some e1 =>
      simp only [ha, Outcome.ret.injEq] at h
      exact h.1.symm

/-- Whenever the parser returns an error, the record returned with it is the
zero record. -/
theorem parseStat_error_zero (dat : GoString) :
    ∀ p e, parseStat dat = .ret p (some e) → p = Procstat.zero := by
  unfold parseStat
  simp only []
  repeat' first
    | refine atoiField_error_zero _ _ _ (fun _ => ?_)
    | split
  all_goals
    intro p e h
    first
      | (simp only [Outcome.ret.injEq] at h; first | exact h.1.symm | exact absurd h.2 (by simp))
      | simp at h

/-- On a line of `52 + k` tokens whose name words have at least two bytes and
whose last token is not empty, a token at an integer position that
`strconv.Atoi` rejects makes the parser return an error with the zero record. -/
theorem parseStat_error_of_bad_token (dat : GoString) (k : Nat)
    (hlen : (Split ' ' dat).length = 52 + k)
    (hname : 2 ≤ (nameWords (Split ' ' dat)).length)
    (hlast : tok (Split ' ' dat) (k + 51) ≠ [])
    (hbad : ¬ isDec (tok (Split ' ' dat) 0) ∨
      (∃ j, intField j ∧ ¬ isDec (tok (Split ' ' dat) (k + j))) ∨
      ¬ isDec (tok (Split ' ' dat) (k + 51)).dropLast) :
    ∃ e, parseStat dat = .ret Procstat.zero (some e) := by
  rcases parseStat_strict dat k hlen hname hlast with ⟨q, hq⟩ | ⟨_, e1, _, _, hz⟩
  · exfalso
    obtain ⟨k1, comm, exitTok, hk1, h0, _, hint, hs, he, _⟩ := parseStat_ret_inv dat q hq
    have hkk : k1 = k := by omega
    subst hkk
    rw [slice_zero_dropLast _ hlast] at hs
    simp only [Option.some.injEq] at hs
    subst hs
    rcases hbad with hb | ⟨j, hj, hb⟩ | hb
    · exact hb h0
    · exact hb (hint j hj)
    · exact hb he
  · exact ⟨e1, hz⟩

/-- A line with a valid pid and too few tokens after the name makes the parser
panic. -/
theorem parseStat_shortLine_panics :
    (Split ' ' shortLine).length = 4 ∧
    GetProcessStat (oneFile (statFile 42) shortLine) 42 = .panic :=
  ⟨by decide, rfl⟩

/-- C6 (counterexample).  The line `extraLine` has 53 tokens, one more than the
fixed arity after the one-word name `(bash)`, and `GetProcessStat` returns a
record with a nil error: the surplus token is counted as a word of the name. -/
theorem C6_surplus_token_accepted :
    (Split ' ' extraLine).length = 53 ∧
    ∃ p, GetProcessStat (oneFile (statFile 1234) extraLine) 1234 = .ret p none ∧
      p.Comm = "bash)".toList ∧ p.State = "1".toList ∧ p.Ppid = 1234 ∧ p.ExitCode = 0 :=
  ⟨by decide, _, rfl, rfl, rfl, rfl, rfl⟩

/-- C6 (amended).  For a stat line of `52 + k` tokens `l` whose name words
(tokens `1 .. k + 1`, joined) are `a :: comm ++ [b]` and whose last token is not
empty, `GetProcessStat` does not panic and does not fail on account of the token
count; the `k` tokens beyond the 52nd are read as further words of the name.
Either every token at an integer position is a decimal integer in the range of
`int`, and the call returns with a nil error the record of the tokens read at
the offset `k`, whose `Comm` is `comm`; or the call returns the zero record with
the error `strconv.Atoi` gives for a token at an integer position. -/
theorem C6_no_arity_error (fs : GoString → Except GoError GoString) (pid : Int)
    (dat comm : GoString) (a b : Char) (l : List GoString) (k : Nat)
    (hread : fs (statFile pid) = .ok dat)
    (hl : Split ' ' dat = l)
    (hlen : l.length = 52 + k)
    (hname : ((l.drop 1).take (k + 1)).flatten = a :: (comm ++ [b]))
    (hlast : tok l (k + 51) ≠ []) :
    (isSignedDecimal (tok l 0) ∧
      (∀ j, intField j → isSignedDecimal (tok l (k + j))) ∧
      isSignedDecimal (tok l (k + 51)).dropLast ∧
      GetProcessStat fs pid = .ret (recordOf l k comm (tok l (k + 51)).dropLast) none ∧
      (recordOf l k comm (tok l (k + 51)).dropLast).Comm = comm ∧
      (recordOf l k comm (tok l (k + 51)).dropLast).State = tok l (k + 2) ∧
      (recordOf l k comm (tok l (k + 51)).dropLast).Pid = signedValue (tok l 0) ∧
      (recordOf l k comm (tok l (k + 51)).dropLast).Ppid = signedValue (tok l (k + 3)) ∧
      (recordOf l k comm (tok l (k + 51)).dropLast).ExitCode
        = signedValue (tok l (k + 51)).dropLast) ∨
    FailsAtIntToken l k (GetProcessStat fs pid) := by
  subst hl
  rw [getProcessStat_of_read fs pid dat hread]
  rcases parseStat_dichotomy dat comm a b k hlen hname hlast with ⟨h0, hint, he, hp⟩ | hf
  · left
    refine ⟨(isDec_iff_isSignedDecimal _).mp h0,
      fun j hj => (isDec_iff_isSignedDecimal _).mp (hint j hj),
      (isDec_iff_isSignedDecimal _).mp he, hp, rfl, rfl, ?_, ?_, ?_⟩
    · exact decVal_eq_signedValue _ h0
    · have h3 := decVal_eq_signedValue _ (hint 3 (by decide))
      exact h3
    · exact decVal_eq_signedValue _ he
  · exact Or.inr hf

/-- C6 (amended), at the 53-token line `weirdLine`: the name words are
`(my)weird` and `proc)`, every integer token passes, and the record returned has
the name `my)weirdproc`, the state `S` read at token 3 and the parent 1 read at
token 4. -/
theorem C6_no_arity_error_witness :
    (Split ' ' weirdLine).length = 53 ∧
    ((isSignedDecimal (tok (Split ' ' weirdLine) 0) ∧
      (∀ j, intField j → isSignedDecimal (tok (Split ' ' weirdLine) (1 + j))) ∧
      isSignedDecimal (tok (Split ' ' weirdLine) (1 + 51)).dropLast ∧
      GetProcessStat (oneFile (statFile 42) weirdLine) 42
        = .ret (recordOf (Split ' ' weirdLine) 1 "my)weirdproc".toList
            (tok (Split ' ' weirdLine) (1 + 51)).dropLast) none ∧
      (recordOf (Split ' ' weirdLine) 1 "my)weirdproc".toList
        (tok (Split ' ' weirdLine) (1 + 51)).dropLast).Comm = "my)weirdproc".toList ∧
      (recordOf (Split ' ' weirdLine) 1 "my)weirdproc".toList
        (tok (Split ' ' weirdLine) (1 + 51)).dropLast).State = "S".toList ∧
      (recordOf (Split ' ' weirdLine) 1 "my)weirdproc".toList
        (tok (Split ' ' weirdLine) (1 + 51)).dropLast).Pid = 42 ∧
      (recordOf (Split ' ' weirdLine) 1 "my)weirdproc".toList
        (tok (Split ' ' weirdLine) (1 + 51)).dropLast).Ppid = 1 ∧
      (recordOf (Split ' ' weirdLine) 1 "my)weirdproc".toList
        (tok (Split ' ' weirdLine) (1 + 51)).dropLast).ExitCode = 0) ∨
    FailsAtIntToken (Split ' ' weirdLine) 1
      (GetProcessStat (oneFile (statFile 42) weirdLine) 42)) ∧
    GetProcessStat (oneFile (statFile 42) weirdLine) 42
      = .ret (recordOf (Split ' ' weirdLine) 1 "my)weirdproc".toList "0".toList) none :=
  ⟨by decide,
    C6_no_arity_error (oneFile (statFile 42) weirdLine) 42 weirdLine "my)weirdproc".toList
      '(' ')' (Split ' ' weirdLine) 1 rfl rfl (by decide) (by decide) (by decide),
    rfl⟩

/-- A line without the final newline whose last token is empty makes the
parser panic. -/
theorem parseStat_cutLine_panics :
    (Split ' ' cutLine).length = 52 ∧
    tok (Split ' ' cutLine) 51 = [] ∧
    ¬ isDec (tok (Split ' ' cutLine) 51) ∧
    GetProcessStat (oneFile (statFile 42) cutLine) 42 = .panic :=
  ⟨by decide, by decide, by decide, rfl⟩

/-- C7.  For a stat line that ends in a newline, has `52 + k` tokens `l` and
name words (tokens `1 .. k + 1`, joined) of at least two bytes, if a token at an
integer position (token 0, a token at an integer offset behind the name, or the
last token without its newline) is no decimal integer in the range of `int`,
then `GetProcessStat` returns a non-nil error together with the zero record: the
error is the one `strconv.Atoi` gives for a token at an integer position, no
record is returned as valid, and no populated record comes with an error. -/
theorem C7_bad_token_error_zero_record (fs : GoString → Except GoError GoString)
    (pid : Int) (dat body : GoString) (l : List GoString) (k : Nat)
    (hread : fs (statFile pid) = .ok dat)
    (hnl : dat = body ++ ['\n'])
    (hl : Split ' ' dat = l)
    (hlen : l.length = 52 + k)
    (hname : 2 ≤ (((l.drop 1).take (k + 1)).flatten).length)
    (hbad : ¬ isSignedDecimal (tok l 0) ∨
      (∃ j, intField j ∧ ¬ isSignedDecimal (tok l (k + j))) ∨
      ¬ isSignedDecimal (tok l (k + 51)).dropLast) :
    FailsAtIntToken l k (GetProcessStat fs pid) ∧
    (∃ e, GetProcessStat fs pid = .ret Procstat.zero (some e)) ∧
    (∀ p, GetProcessStat fs pid ≠ .ret p none) ∧
    (∀ p e, GetProcessStat fs pid = .ret p (some e) → p = Procstat.zero) := by
  subst hl
  rw [getProcessStat_of_read fs pid dat hread]
  obtain ⟨t, ht⟩ := tok_last_newline body (k + 51) (by rw [← hnl]; omega)
  rw [← hnl] at ht
  have hlast : tok (Split ' ' dat) (k + 51) ≠ [] := by rw [ht]; simp
  have hn2 : 2 ≤ (nameWords (Split ' ' dat)).length := by
    rw [nameWords_eq _ k hlen]; exact hname
  have hf : FailsAtIntToken (Split ' ' dat) k (parseStat dat) := by
    rcases parseStat_strict dat k hlen hn2 hlast with ⟨q, hq⟩ | hf
    · exfalso
      obtain ⟨k1, comm, exitTok, hk1, h0, _, hint, hs, he, _⟩ := parseStat_ret_inv dat q hq
      have hkk : k1 = k := by omega
      subst hkk
      rw [slice_zero_dropLast _ hlast] at hs
      simp only [Option.some.injEq] at hs
      subst hs
      rcases hbad with hb | ⟨j, hj, hb⟩ | hb
      · exact hb ((isDec_iff_isSignedDecimal _).mp h0)
      · exact hb ((isDec_iff_isSignedDecimal _).mp (hint j hj))
      · exact hb ((isDec_iff_isSignedDecimal _).mp he)
    · exact hf
  obtain ⟨t1, e1, ht1, he1, hz⟩ := hf
  refine ⟨⟨t1, e1, ht1, he1, hz⟩, ⟨e1, hz⟩, ?_, parseStat_error_zero dat⟩
  intro p hp
  rw [hz] at hp
  simp at hp

/-- C7, at the line `wchanLine`, whose `wchan` token (offset 34) is a kernel
address outside the range of `int`: the call returns the zero record with the
range error of `strconv.Atoi` for that token. -/
theorem C7_bad_token_error_zero_record_witness :
    (FailsAtIntToken (Split ' ' wchanLine) 0
        (GetProcessStat (oneFile (statFile 42) wchanLine) 42) ∧
      (∃ e, GetProcessStat (oneFile (statFile 42) wchanLine) 42
        = .ret Procstat.zero (some e)) ∧
      (∀ p, GetProcessStat (oneFile (statFile 42) wchanLine) 42 ≠ .ret p none) ∧
      (∀ p e, GetProcessStat (oneFile (statFile 42) wchanLine) 42 = .ret p (some e) →
        p = Procstat.zero)) ∧
    GetProcessStat (oneFile (statFile 42) wchanLine) 42
      = .ret Procstat.zero (some (.numRange "18446744071579755915".toList)) :=
  ⟨C7_bad_token_error_zero_record (oneFile (statFile 42) wchanLine) 42 wchanLine
      wchanLine.dropLast (Split ' ' wchanLine) 0 rfl rfl rfl (by decide) (by decide)
      (Or.inr (Or.inl ⟨34, by decide, by decide⟩)),
    rfl⟩

/-! ## The claims on the delimiters and on the pid -/

theorem atoiField_fail (l : List GoString) (k : Int) (t : GoString)
    (cont : Int → Outcome Procstat) (hi : index l k = some t) (hd : ¬ isDec t) :
    atoiField l k cont = .ret Procstat.zero (Atoi t).2 ∧ (Atoi t).2 ≠ none := by
  unfold atoiField
  rw [hi]
  unfold isDec at hd
  rcases h : Atoi t with ⟨v, e⟩
  rw [h] at hd
  cases e with
  | none => exact absurd rfl hd
  | some e => simp [h]

/-- C8 (counterexample).  The line `bareLine` has no `(` and no `)` at all, and
`GetProcessStat` returns a record with a nil error for it, with the name `as`. -/
theorem C8_bare_name_accepted :
    ¬ hasNameDelimiters bareLine ∧
    ∃ p, GetProcessStat (oneFile (statFile 1234) bareLine) 1234 = .ret p none ∧
      p.Comm = "as".toList ∧ p.Pid = 1234 ∧ p.State = "R".toList := by
  refine ⟨?_, _, rfl, rfl, rfl, rfl⟩
  rintro ⟨a, b, c, h⟩
  have hm : '(' ∈ afterPid bareLine := by rw [h]; simp
  revert hm
  decide

/-- C8 (amended).  For a stat line of `52 + k` tokens `l` in which no `(` is
found after the pid token or no `)` follows it, whose name words have at least
two bytes together, `a :: mid ++ [b]`, and whose tokens at the integer positions
are all accepted by `strconv.Atoi`, `GetProcessStat` returns a record with a nil
error, and its `Comm` is `mid`: the name words without their first and their
last byte, whatever these bytes are. -/
theorem C8_no_delimiter_check (fs : GoString → Except GoError GoString) (pid : Int)
    (dat mid : GoString) (a b : Char) (l : List GoString) (k : Nat)
    (hread : fs (statFile pid) = .ok dat)
    (hl : Split ' ' dat = l)
    (_hnodelim : ¬ hasNameDelimiters dat)
    (hlen : l.length = 52 + k)
    (hname : nameWords l = a :: (mid ++ [b]))
    (h0 : isDec (tok l 0))
    (hint : ∀ j, intField j → isDec (tok l (k + j)))
    (hlast : tok l (k + 51) ≠ [])
    (hexit : isDec (tok l (k + 51)).dropLast) :
    ∃ p, GetProcessStat fs pid = .ret p none ∧ p.Comm = mid := by
  subst hl
  rw [getProcessStat_of_read fs pid dat hread]
  refine ⟨_, parseStat_eq_recordOf dat k mid _ hlen h0 ?_ hint
    (slice_zero_dropLast _ hlast) hexit, rfl⟩
  rw [commOf_eq _ k hlen, hname]
  exact slice_inner a b mid

/-- C8 (amended), at the line `bareLine`. -/
theorem C8_no_delimiter_check_witness :
    ∃ p, GetProcessStat (oneFile (statFile 1234) bareLine) 1234 = .ret p none ∧
      p.Comm = "as".toList :=
  C8_no_delimiter_check (oneFile (statFile 1234) bareLine) 1234 bareLine "as".toList 'b' 'h'
    (Split ' ' bareLine) 0 rfl rfl
    (by
      rintro ⟨a, b, c, h⟩
      have hm : '(' ∈ afterPid bareLine := by rw [h]; simp
      revert hm
      decide)
    (by decide) (by decide) (by decide) (all_intField _ (by decide)) (by decide) (by decide)

/-- C9 (counterexample).  The leading token of `negLine` is `-5`, and
`GetProcessStat` returns a record with a nil error whose `Pid` is `-5`;
`strconv.Atoi` accepts `+5` too. -/
theorem C9_negative_pid_accepted :
    tok (Split ' ' negLine) 0 = "-5".toList ∧
    Atoi "+5".toList = (5, none) ∧
    ∃ p, GetProcessStat (oneFile (statFile 5) negLine) 5 = .ret p none ∧
      p.Pid = -5 ∧ ¬ (0 ≤ p.Pid) :=
  ⟨by decide, by decide, _, rfl, rfl, by decide⟩

/-- C9 (amended).  When the leading token of the stat line is not a decimal
integer with an optional sign in the range of `int`, `GetProcessStat` returns
the zero record with the (non-nil) error of `strconv.Atoi` for that token; and
when `GetProcessStat` returns a record with a nil error, the leading token is
such an integer and `Pid` is its signed value. -/
theorem C9_pid_signed_decimal (fs : GoString → Except GoError GoString) (pid : Int)
    (dat : GoString) (l : List GoString)
    (hread : fs (statFile pid) = .ok dat)
    (hl : Split ' ' dat = l) :
    (¬ isSignedDecimal (tok l 0) →
      GetProcessStat fs pid = .ret Procstat.zero (Atoi (tok l 0)).2 ∧
      (Atoi (tok l 0)).2 ≠ none) ∧
    (∀ p, GetProcessStat fs pid = .ret p none →
      isSignedDecimal (tok l 0) ∧ p.Pid = signedValue (tok l 0)) := by
  subst hl
  rw [getProcessStat_of_read fs pid dat hread]
  constructor
  · intro hbad
    have hd : ¬ isDec (tok (Split ' ' dat) 0) :=
      fun h => hbad ((isDec_iff_isSignedDecimal _).mp h)
    unfold parseStat
    simp only []
    exact atoiField_fail _ 0 _ _
      (by rw [index_zero, get?_tok _ 0 (Split_length_pos ' ' dat)]) hd
  · intro p hp
    obtain ⟨k, comm, exitTok, _, h0, _, _, _, _, hrec⟩ := parseStat_ret_inv dat p hp
    refine ⟨(isDec_iff_isSignedDecimal _).mp h0, ?_⟩
    rw [hrec, ← decVal_eq_signedValue _ h0]
    rfl

/-- C9 (amended), at the line `badPidLine`, whose leading token is `4x2`. -/
theorem C9_pid_signed_decimal_witness :
    GetProcessStat (oneFile (statFile 42) badPidLine) 42
      = .ret Procstat.zero (some (.numInvalid "4x2".toList)) :=
  ((C9_pid_signed_decimal (oneFile (statFile 42) badPidLine) 42 badPidLine
    (Split ' ' badPidLine) rfl rfl).1 (by decide)).1

/-! ## The claims on `GetPerProcessStat` -/

/-- The loop of `GetPerProcessStat` returns a nil error exactly when every
entry before the first `acpi` is read successfully, and then it returns the
records of these entries, in order, after the ones collected before. -/
theorem walkProc_ret_iff (fs : GoString → Except GoError GoString) (names : List GoString) :
    ∀ (acc recs : List Procstat),
      walkProc fs names acc = .ret recs none ↔
        (∀ n ∈ entriesBeforeAcpi names, entryOk fs n) ∧
        recs = acc ++ (entriesBeforeAcpi names).map (recordFor fs) := by
  induction names with
  | nil =>
    intro acc recs
    simp [walkProc, entriesBeforeAcpi, eq_comm]
  | cons name rest ih =>
    intro acc recs
    unfold walkProc
    by_cases hacpi : name = "acpi".toList
    · rw [if_pos hacpi]
      simp [entriesBeforeAcpi, hacpi, eq_comm]
    · rw [if_neg hacpi]
      have hb : entriesBeforeAcpi (name :: rest) = name :: entriesBeforeAcpi rest := by
        unfold entriesBeforeAcpi
        rw [List.takeWhile_cons, if_pos (decide_eq_true hacpi)]
      rw [hb]
      simp only [List.mem_cons, forall_eq_or_imp, List.map_cons]
      rcases ha : Atoi name with ⟨pid, e⟩
      have hdv : decVal name = pid := by unfold decVal; rw [ha]
      cases e with
      | some e =>
        have hno : ¬ entryOk fs name := by
          intro h
          have h1 := h.1
          unfold isDec at h1
          rw [ha] at h1
          simp at h1
        simp [hno]
      | none =>
        have hd : isDec name := by unfold isDec; rw [ha]
        rcases hg : GetProcessStat fs pid with ⟨p, e⟩ | _
        · cases e with
          | some e =>
            have hno : ¬ entryOk fs name := by
              rintro ⟨_, q, hq⟩
              rw [hdv, hg] at hq
              simp at hq
            simp [hno, hg]
          | none =>
            have hok : entryOk fs name := ⟨hd, p, by rw [hdv, hg]⟩
            have hr : recordFor fs name = p := by unfold recordFor; rw [hdv, hg]
            simp only [hok, true_and, hr, hg]
            rw [ih (acc ++ [p]) recs]
            simp
        · have hno : ¬ entryOk fs name := by
            rintro ⟨_, q, hq⟩
            rw [hdv, hg] at hq
            simp at hq
          simp [hno, hg]

/-- C10 (evaluation at a failing input).  The listing `listingNoAcpi` has the
numeric entry `1234`, whose stat file parses, then the non-numeric entry
`buddyinfo`, and no entry `acpi`: `GetPerProcessStat` returns no record and the
error of `strconv.Atoi` for `buddyinfo`. -/
theorem C10_non_numeric_entry_fails :
    isDec "1234".toList ∧ ¬ isDec "buddyinfo".toList ∧
    "acpi".toList ∉ listingNoAcpi ∧
    (∃ p, GetProcessStat (oneFile (statFile 1234) bashLine) 1234 = .ret p none ∧
      p.Pid = 1234) ∧
    GetPerProcessStat (.ok listingNoAcpi) (oneFile (statFile 1234) bashLine)
      = .ret [] (some (.numInvalid "buddyinfo".toList)) :=
  ⟨by decide, by decide, by decide, ⟨_, rfl, rfl⟩, rfl⟩

theorem walkProc_first_failure (fs : GoString → Except GoError GoString)
    (n : GoString) (post : List GoString) (p : Procstat) (e : GoError)
    (hn : isDec n) (hfail : GetProcessStat fs (decVal n) = .ret p (some e)) :
    ∀ (pre : List GoString) (acc : List Procstat), (∀ m ∈ pre, entryOk fs m) →
      walkProc fs (pre ++ n :: post) acc = .ret [] (some e) := by
  have hnacpi : ∀ m : GoString, isDec m → m ≠ "acpi".toList := by
    intro m hm h
    rw [h] at hm
    revert hm
    decide
  intro pre
  induction pre with
  | nil =>
    intro acc _
    rw [List.nil_append, walkProc, if_neg (hnacpi n hn), Atoi_of_isDec hn]
    simp only [hfail]
  | cons m pre ih =>
    intro acc hpre
    obtain ⟨hm, q, hq⟩ := hpre m (List.mem_cons_self m pre)
    rw [List.cons_append, walkProc, if_neg (hnacpi m hm), Atoi_of_isDec hm]
    simp only [hq]
    exact ih (acc ++ [q]) (fun x hx => hpre x (List.mem_cons_of_mem m hx))

/-- C11.  Let the listing be `pre ++ n :: post`, where every entry of `pre` is
read successfully (its name is a decimal integer and `GetProcessStat` returns a
nil error for it) and `GetProcessStat` returns the error `e` for the entry `n`.
Then `GetPerProcessStat` returns exactly `e` with an empty slice, whatever the
later entries `post` and their files are: the records of `pre` are not
returned. -/
theorem C11_first_failure_returned (fs : GoString → Except GoError GoString)
    (pre post : List GoString) (n : GoString) (p : Procstat) (e : GoError)
    (hpre : ∀ m ∈ pre, entryOk fs m)
    (hn : isDec n)
    (hfail : GetProcessStat fs (decVal n) = .ret p (some e)) :
    GetPerProcessStat (.ok (pre ++ n :: post)) fs = .ret [] (some e) := by
  unfold GetPerProcessStat
  exact walkProc_first_failure fs n post p e hn hfail pre [] hpre

/-- C11, at the listing `listingGone`: the process 1234 is read, the stat
file of the process 77 does not exist, and the error of that read is returned
with an empty slice. -/
theorem C11_first_failure_returned_witness :
    GetPerProcessStat (.ok listingGone) twoProcs
      = .ret [] (some (.os (statFile 77) 2)) :=
  C11_first_failure_returned twoProcs ["1234".toList] ["42".toList, "acpi".toList]
    "77".toList Procstat.zero (.os (statFile 77) 2)
    (by
      intro m hm
      rw [List.mem_singleton] at hm
      subst hm
      exact ⟨by decide, _, rfl⟩)
    (by decide) rfl

/-- C12.  When `GetPerProcessStat` returns a nil error, the slice returned is
the list of the records that `GetProcessStat` returns for the entries
enumerated (those before the first `acpi`), one for each entry and in the order
of the listing. -/
theorem C12_records_in_listing_order (readDir : Except GoError (List GoString))
    (fs : GoString → Except GoError GoString) (recs : List Procstat)
    (h : GetPerProcessStat readDir fs = .ret recs none) :
    recs = (entriesBeforeAcpi (listedNames readDir)).map (recordFor fs) ∧
    recs.length = (entriesBeforeAcpi (listedNames readDir)).length ∧
    ∀ n ∈ entriesBeforeAcpi (listedNames readDir),
      GetProcessStat fs (decVal n) = .ret (recordFor fs n) none := by
  unfold GetPerProcessStat at h
  have h1 : walkProc fs (listedNames readDir) [] = .ret recs none := by
    cases readDir <;> exact h
  rw [walkProc_ret_iff] at h1
  obtain ⟨hok, hrecs⟩ := h1
  rw [List.nil_append] at hrecs
  refine ⟨hrecs, by rw [hrecs, List.length_map], ?_⟩
  intro n hn
  obtain ⟨_, q, hq⟩ := hok n hn
  unfold recordFor
  rw [hq]

/-- C12, at the listing `listingTwo`: the records of the processes 42 and 1234,
in this order. -/
theorem C12_records_in_listing_order_witness :
    [recordFor twoProcs "42".toList, recordFor twoProcs "1234".toList]
      = (entriesBeforeAcpi (listedNames (.ok listingTwo))).map (recordFor twoProcs) ∧
    (recordFor twoProcs "42".toList).Comm = "sh".toList ∧
    (recordFor twoProcs "1234".toList).Comm = "bash".toList :=
  ⟨(C12_records_in_listing_order (.ok listingTwo) twoProcs
      [recordFor twoProcs "42".toList, recordFor twoProcs "1234".toList] rfl).1,
    rfl, rfl⟩

/-! ## Lemmas on `strings.Split` -/

theorem Split_no_sep (sep : Char) (a : GoString) (h : sep ∉ a) : Split sep a = [a] := by
  induction a with
  | nil => rfl
  | cons c cs ih =>
    have hc : c ≠ sep := fun hh => h (hh ▸ List.mem_cons_self c cs)
    have hcs : sep ∉ cs := fun hh => h (List.mem_cons_of_mem c hh)
    rw [Split_cons_ne sep c hc, ih hcs]
    rfl

theorem Split_append_sep (sep : Char) (a rest : GoString) (h : sep ∉ a) :
    Split sep (a ++ sep :: rest) = a :: Split sep rest := by
  induction a with
  | nil => exact Split_cons_sep sep rest
  | cons c cs ih =>
    have hc : c ≠ sep := fun hh => h (hh ▸ List.mem_cons_self c cs)
    have hcs : sep ∉ cs := fun hh => h (List.mem_cons_of_mem c hh)
    rw [List.cons_append, Split_cons_ne sep c hc, ih hcs]
    rfl

theorem Split_mem_no_sep (sep : Char) (s : GoString) :
    ∀ t ∈ Split sep s, sep ∉ t := by
  induction s with
  | nil => intro t ht; simp [Split] at ht; subst ht; simp
  | cons c cs ih =>
    intro t ht
    by_cases hc : c = sep
    · subst hc
      rw [Split_cons_sep] at ht
      rcases List.mem_cons.mp ht with rfl | ht
      · simp
      · exact ih t ht
    · rw [Split_cons_ne sep c hc] at ht
      rcases hs : Split sep cs with _ | ⟨u, us⟩
      · exact absurd hs (Split_ne_nil sep cs)
      · rw [hs] at ht ih
        simp only [List.headD_cons, List.tail_cons] at ht
        rcases List.mem_cons.mp ht with rfl | ht
        · intro hm
          rcases List.mem_cons.mp hm with h1 | h1
          · exact hc h1.symm
          · exact ih u (List.mem_cons_self u us) h1
        · exact ih t (List.mem_cons_of_mem u ht)

/-- A decimal integer holds digits and at most a sign: no byte `c` that is
neither a digit nor a sign. -/
theorem isSignedDecimal_not_mem (t : GoString) (c : Char) (h : isSignedDecimal t)
    (hd : isDecDigit c = false) (hp : c ≠ '+') (hm : c ≠ '-') : c ∉ t := by
  obtain ⟨_, hdig, _⟩ := h
  cases t with
  | nil => simp
  | cons a as =>
    have hu : unsignedPart (a :: as) = if a = '+' ∨ a = '-' then as else a :: as := rfl
    rw [hu] at hdig
    intro hc
    by_cases ha : a = '+' ∨ a = '-'
    · rw [if_pos ha] at hdig
      rcases List.mem_cons.mp hc with h1 | h1
      · rcases ha with ha | ha
        · exact hp (h1.trans ha)
        · exact hm (h1.trans ha)
      · have := hdig c h1
        rw [hd] at this
        exact absurd this (by simp)
    · rw [if_neg ha] at hdig
      have := hdig c hc
      rw [hd] at this
      exact absurd this (by simp)

theorem isSignedDecimal_no_space (t : GoString) (h : isSignedDecimal t) : ' ' ∉ t :=
  isSignedDecimal_not_mem t ' ' h (by decide) (by decide) (by decide)

theorem isSignedDecimal_no_slash (t : GoString) (h : isSignedDecimal t) : '/' ∉ t :=
  isSignedDecimal_not_mem t '/' h (by decide) (by decide) (by decide)

theorem Atoi_of_isSignedDecimal (t : GoString) (h : isSignedDecimal t) :
    Atoi t = (signedValue t, none) := by
  have hd := (isDec_iff_isSignedDecimal t).mpr h
  rw [Atoi_of_isDec hd, decVal_eq_signedValue t hd]

/-! ## The claims on the scalar readers -/

/-- C19 (evaluation, at every input).  `GetProcessesBlockedSize` never returns
a value with a nil error: on every readable content of `/proc/stat` it panics,
because token 14 of the split on spaces holds no space and is split on spaces
again and indexed at 1.  So it does on `statText`, which has the line
`procs_blocked 3`. -/
theorem C19_blocked_size_always_panics :
    (∀ (fs : GoString → Except GoError GoString) (v : Int),
      GetProcessesBlockedSize fs ≠ .ret v none) ∧
    (∀ dat : GoString, GetProcessesBlockedSize (oneFile procdir_stat dat) = .panic) ∧
    GetProcessesBlockedSize (oneFile procdir_stat statText) = .panic := by
  have key : ∀ (fs : GoString → Except GoError GoString) (dat : GoString),
      fs procdir_stat = .ok dat → GetProcessesBlockedSize fs = .panic := by
    intro fs dat hread
    unfold GetProcessesBlockedSize
    rw [hread]
    simp only
    rcases hi : index (Split ' ' dat) 14 with _ | t
    · rfl
    · simp only
      have hmem : t ∈ Split ' ' dat := by
        unfold index at hi
        split at hi
        · exact List.get?_mem hi
        · simp at hi
      rw [Split_no_sep ' ' t (Split_mem_no_sep ' ' dat t hmem)]
      rfl
  refine ⟨?_, ?_, ?_⟩
  · intro fs v h
    rcases hf : fs procdir_stat with e | dat
    · unfold GetProcessesBlockedSize at h
      rw [hf] at h
      simp at h
    · rw [key fs dat hf] at h
      simp at h
  · intro dat
    exact key _ dat (by simp [oneFile])
  · exact key _ statText (by simp [oneFile])

theorem index_cons_succ {α : Type} (a : α) (l : List α) (n : Nat) :
    index (a :: l) ((n : Int) + 1) = index l (n : Int) := by
  have h : ((n : Int) + 1) = ((n + 1 : Nat) : Int) := by push_cast; rfl
  rw [h, index_natCast, index_natCast]
  rfl

theorem Join_singleton (c sep : GoString) : Join [c] sep = c := by
  simp [Join, List.intercalate]

theorem Join_cons_cons (c d : GoString) (rest : List GoString) (sep : GoString) :
    Join (c :: d :: rest) sep = c ++ (sep ++ Join (d :: rest) sep) := by
  simp [Join, List.intercalate]

/-- C20.  For a content of `/proc/loadavg` of the form `l1 l5 l15 r/t p`
followed by a newline, where the three load averages hold no space and `r`, `t`
and `p` are decimal integers in the range of `int`, `GetRunnableQueueSize`
returns `r`, `GetTaskQueueSize` returns `t` and `GetMostRecentPid` returns `p`,
each with a nil error. -/
theorem C20_loadavg_queue_and_pid (fs : GoString → Except GoError GoString)
    (dat l1 l5 l15 r t p : GoString)
    (hread : fs procdir_loadavg = .ok dat)
    (hdat : dat = l1 ++ ' ' :: (l5 ++ ' ' :: (l15 ++ ' ' :: (r ++ '/' :: (t ++ ' ' ::
      (p ++ ['\n']))))))
    (h1 : ' ' ∉ l1) (h5 : ' ' ∉ l5) (h15 : ' ' ∉ l15)
    (hr : isSignedDecimal r) (ht : isSignedDecimal t) (hp : isSignedDecimal p) :
    GetRunnableQueueSize fs = .ret (signedValue r) none ∧
    GetTaskQueueSize fs = .ret (signedValue t) none ∧
    GetMostRecentPid fs = .ret (signedValue p) none := by
  have hrt : ' ' ∉ r ++ '/' :: t := by
    intro h
    rcases List.mem_append.mp h with h | h
    · exact isSignedDecimal_no_space r hr h
    · rcases List.mem_cons.mp h with h | h
      · exact absurd h (by decide)
      · exact isSignedDecimal_no_space t ht h
  have hpn : ' ' ∉ p ++ ['\n'] := by
    intro h
    rcases List.mem_append.mp h with h | h
    · exact isSignedDecimal_no_space p hp h
    · rw [List.mem_singleton] at h
      exact absurd h (by decide)
  have hsplit : Split ' ' dat = [l1, l5, l15, r ++ '/' :: t, p ++ ['\n']] := by
    rw [hdat, Split_append_sep ' ' l1 _ h1, Split_append_sep ' ' l5 _ h5,
      Split_append_sep ' ' l15 _ h15]
    have h4 : r ++ '/' :: (t ++ ' ' :: (p ++ ['\n'])) = (r ++ '/' :: t) ++ ' ' :: (p ++ ['\n']) := by
      simp
    rw [h4, Split_append_sep ' ' _ _ hrt, Split_no_sep ' ' _ hpn]
  have hslash : Split '/' (r ++ '/' :: t) = [r, t] := by
    rw [Split_append_sep '/' r t (isSignedDecimal_no_slash r hr),
      Split_no_sep '/' t (isSignedDecimal_no_slash t ht)]
  have i3 : index (Split ' ' dat) 3 = some (r ++ '/' :: t) := by rw [hsplit]; rfl
  have i4 : index (Split ' ' dat) 4 = some (p ++ ['\n']) := by rw [hsplit]; rfl
  have j0 : index (Split '/' (r ++ '/' :: t)) 0 = some r := by rw [hslash]; rfl
  have j1 : index (Split '/' (r ++ '/' :: t)) 1 = some t := by rw [hslash]; rfl
  refine ⟨?_, ?_, ?_⟩
  · unfold GetRunnableQueueSize
    simp only [hread, i3, j0, Atoi_of_isSignedDecimal r hr]
  · unfold GetTaskQueueSize
    simp only [hread, i3, j1, Atoi_of_isSignedDecimal t ht]
  · unfold GetMostRecentPid
    simp only [hread, i4, slice_dropLast, Atoi_of_isSignedDecimal p hp]

/-- C20, at the content `0.20 0.18 0.12 1/80 11206`. -/
theorem C20_loadavg_queue_and_pid_witness :
    GetRunnableQueueSize (oneFile procdir_loadavg loadavgText) = .ret 1 none ∧
    GetTaskQueueSize (oneFile procdir_loadavg loadavgText) = .ret 80 none ∧
    GetMostRecentPid (oneFile procdir_loadavg loadavgText) = .ret 11206 none :=
  C20_loadavg_queue_and_pid (oneFile procdir_loadavg loadavgText) loadavgText
    "0.20".toList "0.18".toList "0.12".toList "1".toList "80".toList "11206".toList
    rfl rfl (by decide) (by decide) (by decide) (by decide) (by decide) (by decide)

theorem cpuTime_of_token (fs : GoString → Except GoError GoString) (dat t : GoString)
    (k : Int) (hread : fs procdir_stat = .ok dat)
    (hi : index (Split ' ' dat) k = some t) (ht : isSignedDecimal t) :
    cpuTime fs k = .ret (signedValue t) none := by
  unfold cpuTime
  simp only [hread, hi, Atoi_of_isSignedDecimal t ht]

/-- C17.  For a content of `/proc/stat` that begins with `cpu`, two spaces and
ten decimal counters `cs` (integers in the range of `int`) separated by single
spaces, whatever follows the tenth counter, the readers `GetCpuUserTime`,
`GetCpuNiceTime`, `GetCpuSystemTime`, `GetCpuIdleTime`, `GetCpuIowaitTime`,
`GetCpuIrqTime`, `GetCpuSoftirqTime`, `GetCpuStealTime` and `GetCpuGuestTime`
return the first to the ninth counter, each with a nil error. -/
theorem C17_cpu_counters (fs : GoString → Except GoError GoString)
    (dat tail : GoString) (cs : List GoString)
    (hread : fs procdir_stat = .ok dat)
    (hdat : dat = "cpu  ".toList ++ Join cs " ".toList ++ tail)
    (hlen : cs.length = 10)
    (hdec : ∀ c ∈ cs, isSignedDecimal c) :
    GetCpuUserTime fs = .ret (signedValue (tok cs 0)) none ∧
    GetCpuNiceTime fs = .ret (signedValue (tok cs 1)) none ∧
    GetCpuSystemTime fs = .ret (signedValue (tok cs 2)) none ∧
    GetCpuIdleTime fs = .ret (signedValue (tok cs 3)) none ∧
    GetCpuIowaitTime fs = .ret (signedValue (tok cs 4)) none ∧
    GetCpuIrqTime fs = .ret (signedValue (tok cs 5)) none ∧
    GetCpuSoftirqTime fs = .ret (signedValue (tok cs 6)) none ∧
    GetCpuStealTime fs = .ret (signedValue (tok cs 7)) none ∧
    GetCpuGuestTime fs = .ret (signedValue (tok cs 8)) none := by
  obtain ⟨c1, c2, c3, c4, c5, c6, c7, c8, c9, c10, rfl⟩ :
      ∃ c1 c2 c3 c4 c5 c6 c7 c8 c9 c10, cs = [c1, c2, c3, c4, c5, c6, c7, c8, c9, c10] := by
    match cs, hlen with
    | [c1, c2, c3, c4, c5, c6, c7, c8, c9, c10], _ =>
      exact ⟨c1, c2, c3, c4, c5, c6, c7, c8, c9, c10, rfl⟩
  have d1 := hdec c1 (by simp)
  have d2 := hdec c2 (by simp)
  have d3 := hdec c3 (by simp)
  have d4 := hdec c4 (by simp)
  have d5 := hdec c5 (by simp)
  have d6 := hdec c6 (by simp)
  have d7 := hdec c7 (by simp)
  have d8 := hdec c8 (by simp)
  have d9 := hdec c9 (by simp)
  have hform : dat = ['c', 'p', 'u'] ++ ' ' :: ([] ++ ' ' :: (c1 ++ ' ' :: (c2 ++ ' ' ::
      (c3 ++ ' ' :: (c4 ++ ' ' :: (c5 ++ ' ' :: (c6 ++ ' ' :: (c7 ++ ' ' :: (c8 ++ ' ' ::
      (c9 ++ ' ' :: (c10 ++ tail))))))))))) := by
    rw [hdat]
    have hc : "cpu  ".toList = ['c', 'p', 'u', ' ', ' '] := rfl
    have hs : " ".toList = [' '] := rfl
    rw [hc, hs]
    simp only [Join_cons_cons, Join_singleton, List.append_assoc, List.cons_append,
      List.nil_append]
  have hsplit : Split ' ' dat = ['c', 'p', 'u'] :: [] :: c1 :: c2 :: c3 :: c4 :: c5 :: c6 ::
      c7 :: c8 :: c9 :: Split ' ' (c10 ++ tail) := by
    rw [hform, Split_append_sep ' ' _ _ (by decide), Split_append_sep ' ' [] _ (by simp),
      Split_append_sep ' ' c1 _ (isSignedDecimal_no_space c1 d1),
      Split_append_sep ' ' c2 _ (isSignedDecimal_no_space c2 d2),
      Split_append_sep ' ' c3 _ (isSignedDecimal_no_space c3 d3),
      Split_append_sep ' ' c4 _ (isSignedDecimal_no_space c4 d4),
      Split_append_sep ' ' c5 _ (isSignedDecimal_no_space c5 d5),
      Split_append_sep ' ' c6 _ (isSignedDecimal_no_space c6 d6),
      Split_append_sep ' ' c7 _ (isSignedDecimal_no_space c7 d7),
      Split_append_sep ' ' c8 _ (isSignedDecimal_no_space c8 d8),
      Split_append_sep ' ' c9 _ (isSignedDecimal_no_space c9 d9)]
  refine ⟨?_, ?_, ?_, ?_, ?_, ?_, ?_, ?_, ?_⟩
  · exact cpuTime_of_token fs dat c1 2 hread (by rw [hsplit]; rfl) d1
  · exact cpuTime_of_token fs dat c2 3 hread (by rw [hsplit]; rfl) d2
  · exact cpuTime_of_token fs dat c3 4 hread (by rw [hsplit]; rfl) d3
  · exact cpuTime_of_token fs dat c4 5 hread (by rw [hsplit]; rfl) d4
  · exact cpuTime_of_token fs dat c5 6 hread (by rw [hsplit]; rfl) d5
  · exact cpuTime_of_token fs dat c6 7 hread (by rw [hsplit]; rfl) d6
  · exact cpuTime_of_token fs dat c7 8 hread (by rw [hsplit]; rfl) d7
  · exact cpuTime_of_token fs dat c8 9 hread (by rw [hsplit]; rfl) d8
  · exact cpuTime_of_token fs dat c9 10 hread (by rw [hsplit]; rfl) d9

/-- C17, at the content `statText`. -/
theorem C17_cpu_counters_witness :
    GetCpuUserTime (oneFile procdir_stat statText) = .ret 10132153 none ∧
    GetCpuNiceTime (oneFile procdir_stat statText) = .ret 290696 none ∧
    GetCpuSystemTime (oneFile procdir_stat statText) = .ret 3084719 none ∧
    GetCpuIdleTime (oneFile procdir_stat statText) = .ret 46828483 none ∧
    GetCpuIowaitTime (oneFile procdir_stat statText) = .ret 16683 none ∧
    GetCpuIrqTime (oneFile procdir_stat statText) = .ret 0 none ∧
    GetCpuSoftirqTime (oneFile procdir_stat statText) = .ret 25195 none ∧
    GetCpuStealTime (oneFile procdir_stat statText) = .ret 0 none ∧
    GetCpuGuestTime (oneFile procdir_stat statText) = .ret 175628 none :=
  C17_cpu_counters (oneFile procdir_stat statText) statText (statText.drop 62)
    ["10132153".toList, "290696".toList, "3084719".toList, "46828483".toList,
      "16683".toList, "0".toList, "25195".toList, "0".toList, "175628".toList, "7".toList]
    rfl rfl rfl (by decide)

/-- C18 (evaluation at failing inputs).  On `statText`, whose `cpu` line ends in
the tenth counter 7, and on `statOneLine`, whose tenth counter is 10,
`GetCpuGuestNiceTime` returns 0 with a nil error: token 11 of the split on
spaces holds the newline that follows the counter (and the beginning of the
next line), `strconv.Atoi` rejects it and the error is dropped. -/
theorem C18_guest_nice_returns_zero :
    tok (Split ' ' statText) 11 = "7\ncpu0".toList ∧
    GetCpuGuestNiceTime (oneFile procdir_stat statText) = .ret 0 none ∧
    tok (Split ' ' statOneLine) 11 = "10\n".toList ∧
    GetCpuGuestNiceTime (oneFile procdir_stat statOneLine) = .ret 0 none :=
  ⟨by decide, by decide, by decide, by decide⟩

/-- C16.  For a content of `/proc/swaps` that is the header line only (a line
`header` without a newline in it, ended by a newline), each of the five swap
readers returns the error `no swap partition` with the zero value. -/
theorem C16_no_swap_partition (fs : GoString → Except GoError GoString)
    (dat header : GoString)
    (hread : fs procdir_swaps = .ok dat)
    (hdat : dat = header ++ ['\n'])
    (hheader : '\n' ∉ header) :
    GetSwapFilename fs = .ret [] (some noSwapPartition) ∧
    GetSwapType fs = .ret [] (some noSwapPartition) ∧
    GetSwapSize fs = .ret 0 (some noSwapPartition) ∧
    GetSwapUsed fs = .ret 0 (some noSwapPartition) ∧
    GetSwapPriority fs = .ret 0 (some noSwapPartition) := by
  have hsplit : Split '\n' dat = [header, []] := by
    rw [hdat, Split_append_sep '\n' header [] hheader]
    rfl
  have i1 : index (Split '\n' dat) 1 = some [] := by rw [hsplit]; rfl
  unfold GetSwapFilename GetSwapType GetSwapSize GetSwapUsed GetSwapPriority swapText swapInt
  simp only [hread, i1, ↓reduceIte, and_self]

/-- C16, at the header of `/proc/swaps`. -/
theorem C16_no_swap_partition_witness :
    GetSwapFilename (oneFile procdir_swaps swapsHeader) = .ret [] (some noSwapPartition) ∧
    GetSwapType (oneFile procdir_swaps swapsHeader) = .ret [] (some noSwapPartition) ∧
    GetSwapSize (oneFile procdir_swaps swapsHeader) = .ret 0 (some noSwapPartition) ∧
    GetSwapUsed (oneFile procdir_swaps swapsHeader) = .ret 0 (some noSwapPartition) ∧
    GetSwapPriority (oneFile procdir_swaps swapsHeader) = .ret 0 (some noSwapPartition) :=
  C16_no_swap_partition (oneFile procdir_swaps swapsHeader) swapsHeader swapsHeader.dropLast
    rfl rfl (by decide)

/-- The readers that return after a failed `os.ReadFile` return its error with
the zero value. -/
theorem read_error_returned (fs : GoString → Except GoError GoString) :
    (∀ e, fs procdir_loadavg = .error e →
      GetRunnableQueueSize fs = .ret 0 (some e) ∧ GetTaskQueueSize fs = .ret 0 (some e) ∧
      GetMostRecentPid fs = .ret 0 (some e)) ∧
    (∀ e, fs procdir_swaps = .error e →
      GetSwapFilename fs = .ret [] (some e) ∧ GetSwapType fs = .ret [] (some e) ∧
      GetSwapSize fs = .ret 0 (some e) ∧ GetSwapUsed fs = .ret 0 (some e) ∧
      GetSwapPriority fs = .ret 0 (some e)) ∧
    (∀ e, fs procdir_stat = .error e →
      (∀ k, cpuTime fs k = .ret 0 (some e)) ∧ GetProcessesBlockedSize fs = .ret 0 (some e)) ∧
    (∀ e, fs procdir_osrelease = .error e → GetKernelRelease fs = .ret [] (some e)) := by
  refine ⟨?_, ?_, ?_, ?_⟩
  · intro e h
    unfold GetRunnableQueueSize GetTaskQueueSize GetMostRecentPid
    simp only [h, and_self]
  · intro e h
    unfold GetSwapFilename GetSwapType GetSwapSize GetSwapUsed GetSwapPriority swapText swapInt
    simp only [h, and_self]
  · intro e h
    unfold cpuTime GetProcessesBlockedSize
    simp only [h, implies_true, and_self]
  · intro e h
    unfold GetKernelRelease
    simp only [h]

/-- The memory readers panic whenever `/proc/meminfo` cannot be read. -/
theorem mem_readers_panic_unread (fs : GoString → Except GoError GoString) (e : GoError)
    (h : fs procdir_meminfo = .error e) :
    GetMemTotal fs = .panic ∧ GetMemFree fs = .panic ∧ GetMemUsed fs = .panic ∧
    GetMemAvailable fs = .panic ∧ GetMemBuffers fs = .panic ∧ GetMemCached fs = .panic := by
  have hr : readIgnoringError fs procdir_meminfo = [] := by
    unfold readIgnoringError
    rw [h]
  unfold GetMemTotal GetMemFree GetMemUsed GetMemAvailable GetMemBuffers GetMemCached
  simp only [hr]
  exact ⟨rfl, rfl, rfl, rfl, rfl, rfl⟩

/-- C13 (evaluation at a failing input).  When `/proc/meminfo` cannot be read,
`GetMemTotal`, `GetMemFree`, `GetMemUsed`, `GetMemAvailable`, `GetMemBuffers`
and `GetMemCached` panic instead of returning the error of the read; readers of
the other files, such as `GetMostRecentPid`, `GetSwapSize`, `GetCpuUserTime` and
`GetKernelRelease`, return that error. -/
theorem C13_mem_readers_panic :
    unreadable procdir_meminfo = .error (.os procdir_meminfo 2) ∧
    GetMemTotal unreadable = .panic ∧ GetMemFree unreadable = .panic ∧
    GetMemUsed unreadable = .panic ∧ GetMemAvailable unreadable = .panic ∧
    GetMemBuffers unreadable = .panic ∧ GetMemCached unreadable = .panic ∧
    GetMostRecentPid unreadable = .ret 0 (some (.os procdir_loadavg 2)) ∧
    GetSwapSize unreadable = .ret 0 (some (.os procdir_swaps 2)) ∧
    GetCpuUserTime unreadable = .ret 0 (some (.os procdir_stat 2)) ∧
    GetKernelRelease unreadable = .ret [] (some (.os procdir_osrelease 2)) :=
  ⟨rfl, rfl, rfl, rfl, rfl, rfl, rfl, rfl, rfl, rfl, rfl⟩

/-- C14 (evaluation at failing inputs).  On the content `statBad`, whose ten
counters are letters that `strconv.Atoi` rejects, each of the ten `GetCpu...Time`
readers returns 0 with a nil error; and when the directory `/proc` cannot be
read, `GetPerProcessStat` returns an empty slice with a nil error, whatever the
error of the read is. -/
theorem C14_errors_swallowed :
    (Atoi "a".toList).2 = some (.numInvalid "a".toList) ∧
    tok (Split ' ' statBad) 2 = "a".toList ∧
    GetCpuUserTime (oneFile procdir_stat statBad) = .ret 0 none ∧
    GetCpuNiceTime (oneFile procdir_stat statBad) = .ret 0 none ∧
    GetCpuSystemTime (oneFile procdir_stat statBad) = .ret 0 none ∧
    GetCpuIdleTime (oneFile procdir_stat statBad) = .ret 0 none ∧
    GetCpuIowaitTime (oneFile procdir_stat statBad) = .ret 0 none ∧
    GetCpuIrqTime (oneFile procdir_stat statBad) = .ret 0 none ∧
    GetCpuSoftirqTime (oneFile procdir_stat statBad) = .ret 0 none ∧
    GetCpuStealTime (oneFile procdir_stat statBad) = .ret 0 none ∧
    GetCpuGuestTime (oneFile procdir_stat statBad) = .ret 0 none ∧
    GetCpuGuestNiceTime (oneFile procdir_stat statBad) = .ret 0 none ∧
    (∀ (e : GoError) (fs : GoString → Except GoError GoString),
      GetPerProcessStat (.error e) fs = .ret [] none) :=
  ⟨by decide, by decide, by decide, by decide, by decide, by decide, by decide, by decide,
    by decide, by decide, by decide, by decide, fun _ _ => rfl⟩

/-! ## Lemmas on `strings.Fields`, `strings.TrimSpace` and `strings.Join` -/

theorem fieldsLoop_spaces (run : GoString) (h : ∀ c ∈ run, isSpace c = true) (x : GoString) :
    fieldsLoop (run ++ x) [] = fieldsLoop x [] := by
  induction run with
  | nil => rfl
  | cons b run ih =>
    rw [List.cons_append, fieldsLoop, if_pos (h b (List.mem_cons_self b run)), if_pos rfl]
    exact ih (fun c hc => h c (List.mem_cons_of_mem b hc))

theorem fieldsLoop_column (col : GoString) (h : ∀ c ∈ col, isSpace c = false) :
    ∀ (x cur : GoString), fieldsLoop (col ++ x) cur = fieldsLoop x (cur ++ col) := by
  induction col with
  | nil => intro x cur; simp
  | cons a col ih =>
    intro x cur
    have ha : ¬ isSpace a = true := by
      rw [h a (List.mem_cons_self a col)]; simp
    rw [List.cons_append, fieldsLoop, if_neg ha,
      ih (fun c hc => h c (List.mem_cons_of_mem a hc))]
    simp

theorem fieldsLoop_close (run : GoString) (h : ∀ c ∈ run, isSpace c = true) (hne : run ≠ [])
    (x cur : GoString) (hcur : cur ≠ []) :
    fieldsLoop (run ++ x) cur = cur :: fieldsLoop x [] := by
  cases run with
  | nil => exact absurd rfl hne
  | cons b run =>
    rw [List.cons_append, fieldsLoop, if_pos (h b (List.mem_cons_self b run)), if_neg hcur]
    rw [fieldsLoop_spaces run (fun c hc => h c (List.mem_cons_of_mem b hc))]

theorem fieldsLoop_trailing (w : GoString) (h : ∀ c ∈ w, isSpace c = true) :
    ∀ (s cur : GoString), fieldsLoop (s ++ w) cur = fieldsLoop s cur := by
  have hbase : ∀ cur : GoString, fieldsLoop w cur = fieldsLoop [] cur := by
    intro cur
    by_cases hcur : cur = []
    · subst hcur
      have := fieldsLoop_spaces w h []
      rw [List.append_nil] at this
      exact this
    · by_cases hw : w = []
      · rw [hw]
      · have := fieldsLoop_close w h hw [] cur hcur
        rw [List.append_nil] at this
        rw [this]
        simp [fieldsLoop, hcur]
  intro s
  induction s with
  | nil => intro cur; rw [List.nil_append]; exact hbase cur
  | cons c s ih =>
    intro cur
    rw [List.cons_append, fieldsLoop, fieldsLoop]
    split
    · split
      · exact ih []
      · rw [ih []]
    · exact ih _

theorem fieldsLoop_no_space (s : GoString) :
    ∀ (cur : GoString), (∀ c ∈ cur, isSpace c = false) →
      ∀ f ∈ fieldsLoop s cur, ∀ c ∈ f, isSpace c = false := by
  induction s with
  | nil =>
    intro cur hcur f hf
    unfold fieldsLoop at hf
    split at hf
    · simp at hf
    · rw [List.mem_singleton] at hf
      subst hf
      exact hcur
  | cons a s ih =>
    intro cur hcur f hf
    unfold fieldsLoop at hf
    by_cases ha : isSpace a = true
    · rw [if_pos ha] at hf
      split at hf
      · exact ih [] (by simp) f hf
      · rcases List.mem_cons.mp hf with rfl | hf
        · exact hcur
        · exact ih [] (by simp) f hf
    · rw [if_neg ha] at hf
      refine ih (cur ++ [a]) ?_ f hf
      intro c hc
      rcases List.mem_append.mp hc with hc | hc
      · exact hcur c hc
      · rw [List.mem_singleton] at hc
        subst hc
        simpa using ha

theorem Fields_TrimSpace (s : GoString) : Fields (TrimSpace s) = Fields s := by
  unfold Fields TrimSpace
  have h1 : fieldsLoop s [] = fieldsLoop (s.dropWhile isSpace) [] := by
    conv_lhs => rw [← List.takeWhile_append_dropWhile isSpace s]
    exact fieldsLoop_spaces _ (fun c hc => List.mem_takeWhile_imp hc) _
  have h2 : s.dropWhile isSpace
      = ((s.dropWhile isSpace).reverse.dropWhile isSpace).reverse
        ++ ((s.dropWhile isSpace).reverse.takeWhile isSpace).reverse := by
    rw [← List.reverse_append, List.takeWhile_append_dropWhile, List.reverse_reverse]
  rw [h1]
  conv_rhs => rw [h2]
  rw [fieldsLoop_trailing]
  intro c hc
  exact List.mem_takeWhile_imp (List.mem_reverse.mp hc)

theorem Split_Join (F : List GoString) (hne : F ≠ []) (h : ∀ f ∈ F, ' ' ∉ f) :
    Split ' ' (Join F " ".toList) = F := by
  have hs : " ".toList = [' '] := rfl
  rw [hs]
  induction F with
  | nil => exact absurd rfl hne
  | cons f rest ih =>
    cases rest with
    | nil => rw [Join_singleton, Split_no_sep ' ' f (h f (List.mem_cons_self f []))]
    | cons g rest =>
      rw [Join_cons_cons, List.singleton_append,
        Split_append_sep ' ' f _ (h f (List.mem_cons_self f _)),
        ih (by simp) (fun x hx => h x (List.mem_cons_of_mem f hx))]

theorem swapColumn_of_Fields (line : GoString) (k : Int) (hne : Fields line ≠ []) :
    swapColumn line k = index (Fields line) k := by
  unfold swapColumn
  rw [Fields_TrimSpace, Split_Join _ hne]
  intro f hf hsp
  have := fieldsLoop_no_space line [] (by simp) f hf ' ' hsp
  exact absurd this (by decide)

theorem isBlankRun_spaces (s : GoString) (h : isBlankRun s) : ∀ c ∈ s, isSpace c = true := by
  intro c hc
  rcases h c hc with rfl | rfl <;> decide

theorem isBlankRun_no_newline (s : GoString) (h : isBlankRun s) : '\n' ∉ s := by
  intro hc
  rcases h _ hc with h1 | h1 <;> exact absurd h1 (by decide)

theorem isColumn_no_newline (s : GoString) (h : isColumn s) : '\n' ∉ s := by
  intro hc
  have := (h.2 _ hc).2
  exact absurd this (by decide)

theorem isSignedDecimal_isColumn (t : GoString) (h : isSignedDecimal t) : isColumn t := by
  have hbytes : ∀ c ∈ t, isDecDigit c = true ∨ c = '+' ∨ c = '-' := by
    intro c hc
    by_cases hd : isDecDigit c = true
    · exact Or.inl hd
    · by_cases hp : c = '+'
      · exact Or.inr (Or.inl hp)
      · by_cases hm : c = '-'
        · exact Or.inr (Or.inr hm)
        · exact absurd hc (isSignedDecimal_not_mem t c h (by simpa using hd) hp hm)
  refine ⟨?_, ?_⟩
  · intro ht
    rw [ht] at h
    exact h.1 rfl
  · intro c hc
    rcases hbytes c hc with hd | rfl | rfl
    · unfold isDecDigit at hd
      unfold isSpace
      simp only [Bool.and_eq_true, decide_eq_true_eq] at hd
      simp only [Bool.or_eq_false_iff, decide_eq_false_iff_not]
      omega
    · decide
    · decide

theorem fieldsLoop_column_close (col run x : GoString) (hcol : isColumn col)
    (hrun : isBlankRun run) (hne : run ≠ []) :
    fieldsLoop (col ++ (run ++ x)) [] = col :: fieldsLoop x [] := by
  rw [fieldsLoop_column col (fun c hc => (hcol.2 c hc).2), List.nil_append,
    fieldsLoop_close run (isBlankRun_spaces run hrun) hne x col hcol.1]

/-- The fields of a line of five columns separated by runs of blanks: the five
columns come first. -/
theorem Fields_five_columns (lead s1 s2 s3 s4 rest c1 c2 c3 c4 c5 : GoString)
    (hlead : isBlankRun lead)
    (hs1 : isBlankRun s1 ∧ s1 ≠ []) (hs2 : isBlankRun s2 ∧ s2 ≠ [])
    (hs3 : isBlankRun s3 ∧ s3 ≠ []) (hs4 : isBlankRun s4 ∧ s4 ≠ [])
    (hrest : rest = [] ∨ ∃ b r, rest = b :: r ∧ (b = ' ' ∨ b = '\t') ∧ '\n' ∉ r)
    (hc1 : isColumn c1) (hc2 : isColumn c2) (hc3 : isColumn c3) (hc4 : isColumn c4)
    (hc5 : isColumn c5) :
    ∃ more, Fields (lead ++ (c1 ++ (s1 ++ (c2 ++ (s2 ++ (c3 ++ (s3 ++ (c4 ++ (s4 ++
      (c5 ++ rest)))))))))) = c1 :: c2 :: c3 :: c4 :: c5 :: more := by
  unfold Fields
  rw [fieldsLoop_spaces lead (isBlankRun_spaces lead hlead),
    fieldsLoop_column_close c1 s1 _ hc1 hs1.1 hs1.2,
    fieldsLoop_column_close c2 s2 _ hc2 hs2.1 hs2.2,
    fieldsLoop_column_close c3 s3 _ hc3 hs3.1 hs3.2,
    fieldsLoop_column_close c4 s4 _ hc4 hs4.1 hs4.2,
    fieldsLoop_column c5 (fun c hc => (hc5.2 c hc).2), List.nil_append]
  rcases hrest with rfl | ⟨b, r, rfl, hb, _⟩
  · exact ⟨[], by simp [fieldsLoop, hc5.1]⟩
  · refine ⟨fieldsLoop r [], ?_⟩
    have hsp : isSpace b = true := by rcases hb with rfl | rfl <;> decide
    rw [fieldsLoop, if_pos hsp, if_neg hc5.1]

/-- C15.  Let the content of `/proc/swaps` be a header line, then a second line
made of blanks `lead`, five columns `c1 .. c5` separated by non-empty runs
`s1 .. s4` of spaces and tabs, and a rest that is empty or begins with a blank
(trailing blanks, further columns), the second line being ended by a newline or
by the end of the content.  If `c3`, `c4` and `c5` are decimal integers in the
range of `int`, the five swap readers return `c1`, `c2` and the values of `c3`,
`c4` and `c5`, each with a nil error, whatever the runs of blanks are. -/
theorem C15_swap_columns (fs : GoString → Except GoError GoString)
    (dat header tail lead s1 s2 s3 s4 rest c1 c2 c3 c4 c5 : GoString)
    (hread : fs procdir_swaps = .ok dat)
    (hdat : dat = header ++ '\n' :: ((lead ++ (c1 ++ (s1 ++ (c2 ++ (s2 ++ (c3 ++ (s3 ++
      (c4 ++ (s4 ++ (c5 ++ rest)))))))))) ++ tail))
    (hheader : '\n' ∉ header)
    (htail : tail = [] ∨ ∃ t, tail = '\n' :: t)
    (hlead : isBlankRun lead)
    (hs1 : isBlankRun s1 ∧ s1 ≠ []) (hs2 : isBlankRun s2 ∧ s2 ≠ [])
    (hs3 : isBlankRun s3 ∧ s3 ≠ []) (hs4 : isBlankRun s4 ∧ s4 ≠ [])
    (hrest : rest = [] ∨ ∃ b r, rest = b :: r ∧ (b = ' ' ∨ b = '\t') ∧ '\n' ∉ r)
    (hc1 : isColumn c1) (hc2 : isColumn c2)
    (hc3 : isSignedDecimal c3) (hc4 : isSignedDecimal c4) (hc5 : isSignedDecimal c5) :
    GetSwapFilename fs = .ret c1 none ∧
    GetSwapType fs = .ret c2 none ∧
    GetSwapSize fs = .ret (signedValue c3) none ∧
    GetSwapUsed fs = .ret (signedValue c4) none ∧
    GetSwapPriority fs = .ret (signedValue c5) none := by
  have k3 := isSignedDecimal_isColumn c3 hc3
  have k4 := isSignedDecimal_isColumn c4 hc4
  have k5 := isSignedDecimal_isColumn c5 hc5
  obtain ⟨more, hF⟩ := Fields_five_columns lead s1 s2 s3 s4 rest c1 c2 c3 c4 c5
    hlead hs1 hs2 hs3 hs4 hrest hc1 hc2 k3 k4 k5
  generalize hline : lead ++ (c1 ++ (s1 ++ (c2 ++ (s2 ++ (c3 ++ (s3 ++ (c4 ++ (s4 ++
    (c5 ++ rest))))))))) = line at hdat hF
  have hnl : '\n' ∉ line := by
    rw [← hline]
    simp only [List.mem_append, not_or]
    refine ⟨isBlankRun_no_newline _ hlead, isColumn_no_newline _ hc1,
      isBlankRun_no_newline _ hs1.1, isColumn_no_newline _ hc2,
      isBlankRun_no_newline _ hs2.1, isColumn_no_newline _ k3,
      isBlankRun_no_newline _ hs3.1, isColumn_no_newline _ k4,
      isBlankRun_no_newline _ hs4.1, isColumn_no_newline _ k5, ?_⟩
    rcases hrest with rfl | ⟨b, r, rfl, hb, hr⟩
    · simp
    · intro h
      rcases List.mem_cons.mp h with h | h
      · rcases hb with rfl | rfl <;> exact absurd h (by decide)
      · exact hr h
  have hne : line ≠ [] := by
    intro h
    rw [h] at hF
    exact absurd hF (by simp [Fields, fieldsLoop])
  have i1 : index (Split '\n' dat) 1 = some line := by
    rw [hdat, Split_append_sep '\n' header _ hheader]
    rcases htail with rfl | ⟨t, rfl⟩
    · rw [List.append_nil, Split_no_sep '\n' line hnl]; rfl
    · rw [Split_append_sep '\n' line t hnl]; rfl
  have hFne : Fields line ≠ [] := by rw [hF]; simp
  have q0 : swapColumn line 0 = some c1 := by rw [swapColumn_of_Fields line 0 hFne, hF]; rfl
  have q1 : swapColumn line 1 = some c2 := by rw [swapColumn_of_Fields line 1 hFne, hF]; rfl
  have q2 : swapColumn line 2 = some c3 := by rw [swapColumn_of_Fields line 2 hFne, hF]; rfl
  have q3 : swapColumn line 3 = some c4 := by rw [swapColumn_of_Fields line 3 hFne, hF]; rfl
  have q4 : swapColumn line 4 = some c5 := by rw [swapColumn_of_Fields line 4 hFne, hF]; rfl
  unfold GetSwapFilename GetSwapType GetSwapSize GetSwapUsed GetSwapPriority swapText swapInt
  simp only [hread, i1, hne, ↓reduceIte, q0, q1, q2, q3, q4,
    Atoi_of_isSignedDecimal c3 hc3, Atoi_of_isSignedDecimal c4 hc4,
    Atoi_of_isSignedDecimal c5 hc5, and_self]

/-- C15, at the content `swapsText`: the name is followed by 31 spaces, the
other columns by one or two tabs. -/
theorem C15_swap_columns_witness :
    GetSwapFilename (oneFile procdir_swaps swapsText) = .ret "/dev/sda2".toList none ∧
    GetSwapType (oneFile procdir_swaps swapsText) = .ret "partition".toList none ∧
    GetSwapSize (oneFile procdir_swaps swapsText) = .ret 8388604 none ∧
    GetSwapUsed (oneFile procdir_swaps swapsText) = .ret 1024 none ∧
    GetSwapPriority (oneFile procdir_swaps swapsText) = .ret (-2) none :=
  C15_swap_columns (oneFile procdir_swaps swapsText) swapsText
    "Filename\t\t\t\tType\t\tSize\t\tUsed\t\tPriority".toList "\n".toList []
    "                               ".toList "\t".toList "\t\t".toList "\t\t".toList []
    "/dev/sda2".toList "partition".toList "8388604".toList "1024".toList "-2".toList
    rfl rfl (by decide) (Or.inr ⟨[], rfl⟩) (by decide) (by decide) (by decide) (by decide)
    (by decide) (Or.inl rfl) (by decide) (by decide) (by decide) (by decide) (by decide)

/-! ## The behaviour of `GetProcessStat` on a name of several words -/

theorem intFieldAt_recordOf (l : List GoString) (k : Nat) (comm exitTok : GoString)
    (j : Nat) (h3 : 3 ≤ j) (h23 : j ≤ 23) :
    intFieldAt (recordOf l k comm exitTok) j = decVal (tok l (k + j)) := by
  interval_cases j <;> rfl

theorem tok_take_drop (l : List GoString) (k : Nat) (hk : 23 ≤ k) :
    tok ((l.drop 1).take (k + 1)) 23 = tok l 24 := by
  unfold tok
  rw [List.getD_eq_getElem?_getD, List.getD_eq_getElem?_getD,
    List.getElem?_take_of_lt (by omega), List.getElem?_drop]

/-- C22.  When `GetProcessStat` returns a record `p` with a nil error for a
stat line of `52 + k` tokens `l`, `Rsslim` is the token at the absolute index
24.  So for `1 ≤ k ≤ 21` it is the token of the integer field `k` positions
before `Rsslim` in the struct, a decimal integer whose value is that field of
`p`; for `k = 1` this field is `Rss`, and `strconv.Atoi` of `Rsslim` gives
exactly `p.Rss`; for `k = 22` it is the `State` token, and for `k ≥ 23` it is
the name word at index 23 of the `k + 1` name words. -/
theorem C22_rsslim_absolute_index (fs : GoString → Except GoError GoString) (pid : Int)
    (dat : GoString) (l : List GoString) (p : Procstat) (k : Nat)
    (hread : fs (statFile pid) = .ok dat)
    (hl : Split ' ' dat = l)
    (hlen : l.length = 52 + k)
    (hok : GetProcessStat fs pid = .ret p none) :
    p.Rsslim = tok l 24 ∧
    (1 ≤ k → k ≤ 21 →
      isSignedDecimal p.Rsslim ∧ signedValue p.Rsslim = intFieldAt p (24 - k)) ∧
    (k = 1 → Atoi p.Rsslim = (p.Rss, none)) ∧
    (k = 22 → p.Rsslim = p.State) ∧
    (23 ≤ k → p.Rsslim = tok ((l.drop 1).take (k + 1)) 23) := by
  subst hl
  rw [getProcessStat_of_read fs pid dat hread] at hok
  obtain ⟨k1, comm, exitTok, hk1, _, _, hint, _, _, hrec⟩ := parseStat_ret_inv dat p hok
  have hkk : k1 = k := by omega
  subst hkk
  subst hrec
  have hR : (recordOf (Split ' ' dat) k1 comm exitTok).Rsslim = tok (Split ' ' dat) 24 := rfl
  rw [hR]
  refine ⟨rfl, ?_, ?_, ?_, ?_⟩
  · intro h1 h21
    have hj : intField (24 - k1) := by unfold intField; omega
    have hd := hint (24 - k1) hj
    have he : k1 + (24 - k1) = 24 := by omega
    rw [intFieldAt_recordOf _ _ _ _ _ (by omega) (by omega), he]
    rw [he] at hd
    exact ⟨(isDec_iff_isSignedDecimal _).mp hd, (decVal_eq_signedValue _ hd).symm⟩
  · intro h1
    subst h1
    have hd : isDec (tok (Split ' ' dat) 24) := hint 23 (by decide)
    rw [Atoi_of_isDec hd]
    rfl
  · intro h22
    subst h22
    rfl
  · intro h23
    exact (tok_take_drop _ k1 h23).symm

/-- C22, at the 53-token line `weirdLine` (`k = 1`): `Rsslim` is `100`, the
`rss` token, and `Rss` is 100. -/
theorem C22_rsslim_absolute_index_witness :
    (recordFor (oneFile (statFile 42) weirdLine) "42".toList).Rsslim = "100".toList ∧
    (recordFor (oneFile (statFile 42) weirdLine) "42".toList).Rss = 100 ∧
    Atoi (recordFor (oneFile (statFile 42) weirdLine) "42".toList).Rsslim
      = ((recordFor (oneFile (statFile 42) weirdLine) "42".toList).Rss, none) :=
  ⟨(C22_rsslim_absolute_index (oneFile (statFile 42) weirdLine) 42 weirdLine
      (Split ' ' weirdLine) (recordFor (oneFile (statFile 42) weirdLine) "42".toList) 1
      rfl rfl (by decide) rfl).1,
    rfl,
    (C22_rsslim_absolute_index (oneFile (statFile 42) weirdLine) 42 weirdLine
      (Split ' ' weirdLine) (recordFor (oneFile (statFile 42) weirdLine) "42".toList) 1
      rfl rfl (by decide) rfl).2.2.1 rfl⟩

theorem slice_one_inv (s m : GoString)
    (h : slice s 1 ((s.length : Int) - 1) = some m) :
    ∃ a b, s = a :: (m ++ [b]) := by
  unfold slice at h
  split at h
  · rename_i hc
    have hlen : 2 ≤ s.length := by omega
    cases s with
    | nil => simp at hlen
    | cons a s1 =>
      have hne : s1 ≠ [] := by
        intro hs
        rw [hs] at hlen
        simp at hlen
      refine ⟨a, s1.getLast hne, ?_⟩
      simp only [Option.some.injEq] at h
      rw [← h]
      have h1 : ((1 : Int)).toNat = 1 := rfl
      have h2 : (((a :: s1).length : Int) - 1).toNat - (1 : Int).toNat = s1.length - 1 := by
        simp only [List.length_cons]; omega
      rw [h2, h1, List.drop_one, List.tail_cons, ← List.dropLast_eq_take,
        List.dropLast_append_getLast hne]
  · simp at h

theorem flatten_no_sep (sep : Char) (ws : List GoString) (h : ∀ w ∈ ws, sep ∉ w) :
    sep ∉ ws.flatten := by
  intro hm
  obtain ⟨w, hw, hc⟩ := List.mem_flatten.mp hm
  exact h w hw hc

/-- C23.  When `GetProcessStat` returns a record `p` with a nil error for a
stat line of `52 + k` tokens `l`, the tokens `1 .. k + 1` written one after the
other with nothing between them are one byte, then `p.Comm`, then one byte; and
`p.Comm` holds no space. -/
theorem C23_comm_joined_words (fs : GoString → Except GoError GoString) (pid : Int)
    (dat : GoString) (l : List GoString) (p : Procstat) (k : Nat)
    (hread : fs (statFile pid) = .ok dat)
    (hl : Split ' ' dat = l)
    (hlen : l.length = 52 + k)
    (hok : GetProcessStat fs pid = .ret p none) :
    (∃ a b, ((l.drop 1).take (k + 1)).flatten = a :: (p.Comm ++ [b])) ∧
    ' ' ∉ p.Comm := by
  subst hl
  rw [getProcessStat_of_read fs pid dat hread] at hok
  obtain ⟨k1, comm, exitTok, hk1, _, hcomm, _, _, _, hrec⟩ := parseStat_ret_inv dat p hok
  have hkk : k1 = k := by omega
  subst hkk
  subst hrec
  have hC : (recordOf (Split ' ' dat) k1 comm exitTok).Comm = comm := rfl
  rw [hC]
  rw [commOf_eq _ k1 hlen] at hcomm
  have hw : nameWords (Split ' ' dat)
      = (((Split ' ' dat).drop 1).take (k1 + 1)).flatten := by
    unfold nameWords
    have : (Split ' ' dat).length - 51 = k1 + 1 := by omega
    rw [this]
  rw [hw] at hcomm
  obtain ⟨a, b, hab⟩ := slice_one_inv _ _ hcomm
  refine ⟨⟨a, b, hab⟩, ?_⟩
  have hns : ' ' ∉ (((Split ' ' dat).drop 1).take (k1 + 1)).flatten := by
    apply flatten_no_sep
    intro w hwm
    exact Split_mem_no_sep ' ' dat w (List.mem_of_mem_drop (List.mem_of_mem_take hwm))
  rw [hab] at hns
  intro hc
  exact hns (List.mem_cons_of_mem a (List.mem_append_left [b] hc))

/-- C23, at the line `weirdLine`, whose name is `my)weird proc`: the name words
are `(my)weird` and `proc)`, and `Comm` is `my)weirdproc`. -/
theorem C23_comm_joined_words_witness :
    (∃ a b, "(my)weirdproc)".toList
      = a :: ((recordFor (oneFile (statFile 42) weirdLine) "42".toList).Comm ++ [b])) ∧
    ' ' ∉ (recordFor (oneFile (statFile 42) weirdLine) "42".toList).Comm ∧
    (recordFor (oneFile (statFile 42) weirdLine) "42".toList).Comm = "my)weirdproc".toList :=
  ⟨(C23_comm_joined_words (oneFile (statFile 42) weirdLine) 42 weirdLine
      (Split ' ' weirdLine) (recordFor (oneFile (statFile 42) weirdLine) "42".toList) 1
      rfl rfl (by decide) rfl).1,
    (C23_comm_joined_words (oneFile (statFile 42) weirdLine) 42 weirdLine
      (Split ' ' weirdLine) (recordFor (oneFile (statFile 42) weirdLine) "42".toList) 1
      rfl rfl (by decide) rfl).2,
    rfl⟩

/-! ## The behaviour of `GetPerProcessStat` at the entry `acpi` -/

theorem walkProc_entriesBeforeAcpi (fs : GoString → Except GoError GoString)
    (names : List GoString) :
    ∀ acc : List Procstat,
      walkProc fs names acc = walkProc fs (entriesBeforeAcpi names) acc := by
  induction names with
  | nil => intro acc; rfl
  | cons name rest ih =>
    intro acc
    by_cases hacpi : name = "acpi".toList
    · have hb : entriesBeforeAcpi (name :: rest) = [] := by
        unfold entriesBeforeAcpi
        rw [List.takeWhile_cons, if_neg (by simpa using hacpi)]
      rw [hb, show walkProc fs [] acc = .ret acc none from rfl, walkProc, if_pos hacpi]
    · have hb : entriesBeforeAcpi (name :: rest) = name :: entriesBeforeAcpi rest := by
        unfold entriesBeforeAcpi
        rw [List.takeWhile_cons, if_pos (decide_eq_true hacpi)]
      rw [hb, walkProc, walkProc, if_neg hacpi, if_neg hacpi]
      rcases Atoi name with ⟨pid, e⟩
      cases e with
      | some e => rfl
      | none =>
        simp only
        rcases GetProcessStat fs pid with ⟨p, e⟩ | _
        · cases e with
          | some e => rfl
          | none => exact ih (acc ++ [p])
        · rfl

/-- C24.  `GetPerProcessStat` returns a nil error if and only if every entry
of the listing before the first entry named `acpi` (every entry when there is
none) has a name that `strconv.Atoi` accepts and a stat file for which
`GetProcessStat` returns a nil error; and its result is the result on these
entries alone, so two listings with the same entries before the first `acpi`
give the same result, whatever follows. -/
theorem C24_only_entries_before_acpi (fs : GoString → Except GoError GoString)
    (names : List GoString) :
    ((∃ recs, GetPerProcessStat (.ok names) fs = .ret recs none) ↔
      ∀ n ∈ entriesBeforeAcpi names, entryOk fs n) ∧
    GetPerProcessStat (.ok names) fs
      = GetPerProcessStat (.ok (entriesBeforeAcpi names)) fs ∧
    (∀ names2 : List GoString, entriesBeforeAcpi names2 = entriesBeforeAcpi names →
      GetPerProcessStat (.ok names2) fs = GetPerProcessStat (.ok names) fs) := by
  refine ⟨?_, ?_, ?_⟩
  · unfold GetPerProcessStat
    constructor
    · rintro ⟨recs, h⟩
      exact ((walkProc_ret_iff fs names [] recs).mp h).1
    · intro h
      exact ⟨_, (walkProc_ret_iff fs names [] _).mpr ⟨h, rfl⟩⟩
  · unfold GetPerProcessStat
    exact walkProc_entriesBeforeAcpi fs names []
  · intro names2 h
    unfold GetPerProcessStat
    simp only
    rw [walkProc_entriesBeforeAcpi fs names2, walkProc_entriesBeforeAcpi fs names, h]

/-- C24, at the listing `listingTwo` (`42`, `1234`, `acpi`, `bus`, `self`): the
call succeeds, and the result is the same when the entries from `acpi` on are
replaced by a process without a stat file. -/
theorem C24_only_entries_before_acpi_witness :
    (∃ recs, GetPerProcessStat (.ok listingTwo) twoProcs = .ret recs none) ∧
    GetPerProcessStat (.ok ["42".toList, "1234".toList, "acpi".toList, "77".toList]) twoProcs
      = GetPerProcessStat (.ok listingTwo) twoProcs :=
  ⟨(C24_only_entries_before_acpi twoProcs listingTwo).1.mpr (by
      intro n hn
      have h2 : n = "42".toList ∨ n = "1234".toList := by
        have : entriesBeforeAcpi listingTwo = ["42".toList, "1234".toList] := by decide
        rw [this] at hn
        simpa using hn
      rcases h2 with rfl | rfl
      · exact ⟨by decide, _, rfl⟩
      · exact ⟨by decide, _, rfl⟩),
    (C24_only_entries_before_acpi twoProcs listingTwo).2.2 _ (by decide)⟩

/-! ## The claim on the memory readers -/

theorem MemLine.text_no_newline (m : MemLine) (h : m.wellFormed) : '\n' ∉ m.text := by
  obtain ⟨hk, hs, _, hv, hr⟩ := h
  unfold MemLine.text
  simp only [List.mem_append, not_or]
  refine ⟨isColumn_no_newline _ hk, isBlankRun_no_newline _ hs,
    isColumn_no_newline _ (isSignedDecimal_isColumn _ hv), ?_⟩
  rcases hr with hr | ⟨b, r, hbr, hb, hr⟩
  · rw [hr]; simp
  · rw [hbr]
    intro hm
    rcases List.mem_cons.mp hm with hm | hm
    · rcases hb with rfl | rfl <;> exact absurd hm (by decide)
    · exact hr hm

theorem MemLine.Fields_text (m : MemLine) (h : m.wellFormed) :
    ∃ more, Fields m.text = m.key :: m.value :: more := by
  obtain ⟨hk, hs, hsne, hv, hr⟩ := h
  have hvc := isSignedDecimal_isColumn _ hv
  unfold Fields MemLine.text
  rw [fieldsLoop_column_close m.key m.sep _ hk hs hsne,
    fieldsLoop_column m.value (fun c hc => (hvc.2 c hc).2), List.nil_append]
  rcases hr with hr | ⟨b, r, hbr, hb, _⟩
  · rw [hr]
    exact ⟨[], by simp [fieldsLoop, hvc.1]⟩
  · rw [hbr]
    refine ⟨fieldsLoop r [], ?_⟩
    have hsp : isSpace b = true := by rcases hb with rfl | rfl <;> decide
    rw [fieldsLoop, if_pos hsp, if_neg hvc.1]

theorem memField_of_line (dat_s : List GoString) (n : Int) (m : MemLine)
    (cont : Int → Outcome Int) (hi : index dat_s n = some m.text) (h : m.wellFormed) :
    memField dat_s n cont = cont (signedValue m.value) := by
  obtain ⟨more, hF⟩ := m.Fields_text h
  have h1 : index (Fields m.text) 1 = some m.value := by rw [hF]; rfl
  unfold memField
  simp only [hi, h1, Atoi_of_isSignedDecimal m.value h.2.2.2.1]

/-- C21.  For a content of `/proc/meminfo` whose first five lines `m1 .. m5`
have the form `Key: value kB` (a key without white space, blanks, a decimal
integer in the range of `int`, then a rest that is empty or begins with a
blank), the fifth being ended by a newline or by the end of the content,
`GetMemTotal`, `GetMemFree`, `GetMemAvailable`, `GetMemBuffers` and
`GetMemCached` return the values of the lines 1, 2, 3, 4 and 5, each with a nil
error; nothing is asked of the keys. -/
theorem C21_mem_values_by_line (fs : GoString → Except GoError GoString)
    (dat tail : GoString) (m1 m2 m3 m4 m5 : MemLine)
    (hread : fs procdir_meminfo = .ok dat)
    (hdat : dat = m1.text ++ '\n' :: (m2.text ++ '\n' :: (m3.text ++ '\n' ::
      (m4.text ++ '\n' :: (m5.text ++ tail)))))
    (htail : tail = [] ∨ ∃ t, tail = '\n' :: t)
    (h1 : m1.wellFormed) (h2 : m2.wellFormed) (h3 : m3.wellFormed)
    (h4 : m4.wellFormed) (h5 : m5.wellFormed) :
    GetMemTotal fs = .ret (signedValue m1.value) none ∧
    GetMemFree fs = .ret (signedValue m2.value) none ∧
    GetMemAvailable fs = .ret (signedValue m3.value) none ∧
    GetMemBuffers fs = .ret (signedValue m4.value) none ∧
    GetMemCached fs = .ret (signedValue m5.value) none := by
  have hr : readIgnoringError fs procdir_meminfo = dat := by
    unfold readIgnoringError
    rw [hread]
  have hsplit : ∃ more, Split '\n' dat
      = m1.text :: m2.text :: m3.text :: m4.text :: m5.text :: more := by
    rw [hdat, Split_append_sep '\n' _ _ (m1.text_no_newline h1),
      Split_append_sep '\n' _ _ (m2.text_no_newline h2),
      Split_append_sep '\n' _ _ (m3.text_no_newline h3),
      Split_append_sep '\n' _ _ (m4.text_no_newline h4)]
    rcases htail with rfl | ⟨t, rfl⟩
    · rw [List.append_nil, Split_no_sep '\n' _ (m5.text_no_newline h5)]
      exact ⟨[], rfl⟩
    · rw [Split_append_sep '\n' _ _ (m5.text_no_newline h5)]
      exact ⟨_, rfl⟩
  obtain ⟨more, hs⟩ := hsplit
  unfold GetMemTotal GetMemFree GetMemAvailable GetMemBuffers GetMemCached
  rw [hr]
  refine ⟨?_, ?_, ?_, ?_, ?_⟩
  · exact memField_of_line _ 0 m1 _ (by rw [hs]; rfl) h1
  · exact memField_of_line _ 1 m2 _ (by rw [hs]; rfl) h2
  · exact memField_of_line _ 2 m3 _ (by rw [hs]; rfl) h3
  · exact memField_of_line _ 3 m4 _ (by rw [hs]; rfl) h4
  · exact memField_of_line _ 4 m5 _ (by rw [hs]; rfl) h5

/-- C21, at the content `meminfoText`. -/
theorem C21_mem_values_by_line_witness :
    GetMemTotal (oneFile procdir_meminfo meminfoText) = .ret 16316412 none ∧
    GetMemFree (oneFile procdir_meminfo meminfoText) = .ret 1234567 none ∧
    GetMemAvailable (oneFile procdir_meminfo meminfoText) = .ret 9876543 none ∧
    GetMemBuffers (oneFile procdir_meminfo meminfoText) = .ret 200000 none ∧
    GetMemCached (oneFile procdir_meminfo meminfoText) = .ret 3000000 none :=
  C21_mem_values_by_line (oneFile procdir_meminfo meminfoText) meminfoText
    "\nSwapCached:            0 kB\n".toList
    ⟨"MemTotal:".toList, "       ".toList, "16316412".toList, " kB".toList⟩
    ⟨"MemFree:".toList, "         ".toList, "1234567".toList, " kB".toList⟩
    ⟨"MemAvailable:".toList, "    ".toList, "9876543".toList, " kB".toList⟩
    ⟨"Buffers:".toList, "          ".toList, "200000".toList, " kB".toList⟩
    ⟨"Cached:".toList, "          ".toList, "3000000".toList, " kB".toList⟩
    rfl rfl (Or.inr ⟨_, rfl⟩)
    ⟨by decide, by decide, by decide, by decide, Or.inr ⟨_, _, rfl, Or.inl rfl, by decide⟩⟩
    ⟨by decide, by decide, by decide, by decide, Or.inr ⟨_, _, rfl, Or.inl rfl, by decide⟩⟩
    ⟨by decide, by decide, by decide, by decide, Or.inr ⟨_, _, rfl, Or.inl rfl, by decide⟩⟩
    ⟨by decide, by decide, by decide, by decide, Or.inr ⟨_, _, rfl, Or.inl rfl, by decide⟩⟩
    ⟨by decide, by decide, by decide, by decide, Or.inr ⟨_, _, rfl, Or.inl rfl, by decide⟩⟩

end Lpfs
